import Mathlib

/-!
Verification development for the bc-marketplace chaincode
(src/v0.6/bc_marketplace_cc.go).

The ledger is modelled as a total map from string keys to optional
stored values.  Stored byte payloads are modelled at the granularity of
their JSON structure: a `Jval` is the JSON document carried by the
bytes, and Go's `json.Marshal` / `json.Unmarshal` are embedded as
`marshal*` / `unmarshal*` functions following the semantics of Go's
encoding/json package on the struct types of the source (missing object
fields yield the zero value, `null` yields the zero value, a type
mismatch is an error, unknown fields are ignored, for duplicate keys the
last binding wins).  Byte-for-byte identity of the Go program implies
identity of the modelled JSON values.  `json.Unmarshal` is modelled
all-or-nothing: on a type mismatch the whole decode errors (Go would
additionally keep the fields decoded before the mismatch; no operation
modelled here observes that difference on the inputs considered).

The chaincode stub's `GetState`/`PutState` never fail in the model (the
spec treats the ledger as an external total key-value store), and
`time.Now()` is threaded through every operation as an explicit `now`
string.  Each Go function that both returns a result and mutates state
becomes a Lean function returning the pair of its result and the new
ledger.
-/

/-- JSON values, the model of the byte payloads stored on the ledger. -/
inductive Jval where
  | jnull : Jval
  | jbool : Bool → Jval
  | jnum : Int → Jval
  | jstr : String → Jval
  | jarr : List Jval → Jval
  | jobj : List (String × Jval) → Jval

/-- The ledger: a total map from state key to optionally-present bytes. -/
def Ledger : Type := String → Option Jval

def emptyLedger : Ledger := fun _ => none

def putStateL (σ : Ledger) (k : String) (v : Jval) : Ledger :=
  fun q => if q = k then some v else σ q

/-! Key names for the arrays holding all keys of a particular type
(source lines 36-51). -/

def landKeysName : String := "landKeys"
def propertyKeysName : String := "propertyKeys"
def propertyAdKeysName : String := "propertyAdKeys"
def buyerKeysName : String := "buyerKeys"
def sellerKeysName : String := "sellerKeys"
def bankKeysName : String := "bankKeys"
def appraiserKeysName : String := "appraiserKeys"
def maKeysName : String := "maKeys"
def scKeysName : String := "scKeys"
def aaKeysName : String := "aaKeys"
def maLogKeysName : String := "maLogKeys"
def bcLogsKey : String := "bcLogsKey"

/-! Prefixes for keys inside state (source lines 53-67). -/

def typeLand : String := "land:"
def typePermit : String := "permit:"
def typeMortgageApplication : String := "ma:"
def typeSalesContract : String := "sc:"
def typeAppraiserApplication : String := "aa:"
def typeProperty : String := "prop:"
def typePropertyAd : String := "propad:"
def typeBuyer : String := "buyer:"
def typeSeller : String := "seller:"
def typeBank : String := "bank:"
def typeAppraiser : String := "appraiser:"
def typeUser : String := "user:"
def typeAuditor : String := "auditor:"
def typeMALog : String := "malog:"

/-! Object types (source lines 72-84). -/

def BUYER : Int := 1
def SELLER : Int := 2
def BANK : Int := 3
def APPRAISER : Int := 4
def AUDITOR : Int := 5
def USER : Int := 6
def LAND : Int := 7
def PROPERTY : Int := 8
def PROPERTYAD : Int := 9
def MORTGAGEAPPLICATION : Int := 10
def SALESCONTRACT : Int := 11
def APPRAISERAPPLICATION : Int := 12
def MALOG : Int := 13

/-! Affiliation types (source lines 89-93). -/

def BUYER_A : Int := 1
def SELLER_A : Int := 2
def BANK_A : Int := 3
def APPRAISER_A : Int := 4
def AUDITOR_A : Int := 5

/-! Data structures (source lines 102-266), with the JSON tag names of
the Go structs as field names. -/

structure FinancialInfo where
  monthlySalary : Int
  otherIncome : Int
  otherExpenditure : Int
  monthlyRent : Int
  monthlyLoanPayment : Int
deriving DecidableEq

structure PersonalInfo where
  firstname : String
  lastname : String
  dob : String
  phone : String
  mobile : String
  email : String
deriving DecidableEq

structure MortgageApplication where
  id : String
  propertyId : String
  landId : String
  permitId : String
  buyerId : String
  appraiserApplicationId : String
  salesContractId : String
  personalInfo : PersonalInfo
  financialInfo : FinancialInfo
  status : String
  requestedAmount : Int
  fairMarketValue : Int
  approvedAmount : Int
  reviewerId : String
  lastModifiedDate : String
deriving DecidableEq

structure SalesContract where
  id : String
  propertyId : String
  buyerId : String
  sellerId : String
  reviewerId : String
  buyerSignature : String
  sellerSignature : String
  status : String
  price : Int
  lastModifiedDate : String
deriving DecidableEq

structure AppraiserApplication where
  id : String
  mortgageApplicationId : String
  appraiserId : String
  reviewerId : String
  propertyId : String
  status : String
  fairMarketValue : Int
  lastModifiedDate : String
deriving DecidableEq

structure Buyer where
  id : String
  affiliation : Int
  mortgageApplications : List String
  salesContracts : List String
deriving DecidableEq

structure Seller where
  id : String
  affiliation : Int
  salesContracts : List String
deriving DecidableEq

structure Bank where
  id : String
  affiliation : Int
  mortgageApplications : List String
  salesContracts : List String
deriving DecidableEq

structure Auditor where
  id : String
  affiliation : Int
deriving DecidableEq

structure Appraiser where
  id : String
  affiliation : Int
  appraiserApplications : List String
deriving DecidableEq

structure MAUpdateSchema where
  status : String
  salesContractId : String
  fairMarketValue : Int
  approvedAmount : Int
deriving DecidableEq

structure AAUpdateSchema where
  status : String
  fairMarketValue : Int
deriving DecidableEq

structure SCUpdateSchema where
  status : String
  buyerSignature : String
  sellerSignature : String
  price : Int
deriving DecidableEq

structure MALog where
  mortgageApplicationId : String
  buyerId : String
  reviewerId : String
  status : String
  action : String
  text : String
  timestamp : String
deriving DecidableEq

structure MALogHolder where
  MALogs : List MALog
deriving DecidableEq

def zeroFinancialInfo : FinancialInfo := ⟨0, 0, 0, 0, 0⟩
def zeroPersonalInfo : PersonalInfo := ⟨"", "", "", "", "", ""⟩
def zeroMortgageApplication : MortgageApplication :=
  ⟨"", "", "", "", "", "", "", zeroPersonalInfo, zeroFinancialInfo, "", 0, 0, 0, "", ""⟩
def zeroSalesContract : SalesContract := ⟨"", "", "", "", "", "", "", "", 0, ""⟩
def zeroAppraiserApplication : AppraiserApplication := ⟨"", "", "", "", "", "", 0, ""⟩
def zeroBuyer : Buyer := ⟨"", 0, [], []⟩
def zeroSeller : Seller := ⟨"", 0, []⟩
def zeroBank : Bank := ⟨"", 0, [], []⟩
def zeroAppraiser : Appraiser := ⟨"", 0, []⟩
def zeroMAUpdateSchema : MAUpdateSchema := ⟨"", "", 0, 0⟩
def zeroAAUpdateSchema : AAUpdateSchema := ⟨"", 0⟩
def zeroSCUpdateSchema : SCUpdateSchema := ⟨"", "", "", 0⟩
def zeroMALog : MALog := ⟨"", "", "", "", "", "", ""⟩

/-! Embedding of Go's encoding/json field access: find the binding of a
key in a JSON object; with duplicate keys the last binding wins. -/

def jlookup (fs : List (String × Jval)) (k : String) : Option Jval :=
  match fs with
  | [] => none
  | (k₁, v) :: rest =>
    match jlookup rest k with
    | some r => some r
    | none => if k₁ = k then some v else none

/-- Decode a string-typed struct field from a JSON object: a missing
field or `null` yields the zero value `""`, a JSON string yields its
content, anything else is a decoding error. -/
def decStr (fs : List (String × Jval)) (k : String) : Except String String :=
  match jlookup fs k with
  | none => .ok ""
  | some (.jstr s) => .ok s
  | some .jnull => .ok ""
  | some _ => .error ("json: cannot unmarshal value into field " ++ k ++ " of type string")

/-- Decode an int-typed struct field from a JSON object. -/
def decInt (fs : List (String × Jval)) (k : String) : Except String Int :=
  match jlookup fs k with
  | none => .ok 0
  | some (.jnum n) => .ok n
  | some .jnull => .ok 0
  | some _ => .error ("json: cannot unmarshal value into field " ++ k ++ " of type int")

/-- Decode the elements of a JSON array into a list of strings. -/
def decStrElems (xs : List Jval) : Except String (List String) :=
  match xs with
  | [] => .ok []
  | .jstr s :: rest =>
    match decStrElems rest with
    | .ok l => .ok (s :: l)
    | .error e => .error e
  | _ :: _ => .error "json: cannot unmarshal value into element of type string"

/-- Decode a `[]string`-typed struct field from a JSON object. -/
def decStrList (fs : List (String × Jval)) (k : String) : Except String (List String) :=
  match jlookup fs k with
  | none => .ok []
  | some .jnull => .ok []
  | some (.jarr xs) => decStrElems xs
  | some _ => .error ("json: cannot unmarshal value into field " ++ k ++ " of type []string")

def unmarshalPersonalInfo (j : Jval) : Except String PersonalInfo :=
  match j with
  | .jnull => .ok zeroPersonalInfo
  | .jobj fs =>
    match decStr fs "firstname", decStr fs "lastname", decStr fs "dob" with
    | .ok f, .ok l, .ok d =>
      match decStr fs "phone", decStr fs "mobile", decStr fs "email" with
      | .ok p, .ok m, .ok e => .ok ⟨f, l, d, p, m, e⟩
      | .error e, _, _ => .error e
      | _, .error e, _ => .error e
      | _, _, .error e => .error e
    | .error e, _, _ => .error e
    | _, .error e, _ => .error e
    | _, _, .error e => .error e
  | _ => .error "json: cannot unmarshal value into Go value of type main.PersonalInfo"

def unmarshalFinancialInfo (j : Jval) : Except String FinancialInfo :=
  match j with
  | .jnull => .ok zeroFinancialInfo
  | .jobj fs =>
    match decInt fs "monthlySalary", decInt fs "otherIncome", decInt fs "otherExpenditure",
          decInt fs "monthlyRent", decInt fs "monthlyLoanPayment" with
    | .ok a, .ok b, .ok c, .ok d, .ok e => .ok ⟨a, b, c, d, e⟩
    | .error e, _, _, _, _ => .error e
    | _, .error e, _, _, _ => .error e
    | _, _, .error e, _, _ => .error e
    | _, _, _, .error e, _ => .error e
    | _, _, _, _, .error e => .error e
  | _ => .error "json: cannot unmarshal value into Go value of type main.FinancialInfo"

/-- Decode a nested-struct field (`personalInfo`): missing yields the
zero value, otherwise the nested decoder runs on the field's value. -/
def decPersonalInfo (fs : List (String × Jval)) (k : String) : Except String PersonalInfo :=
  match jlookup fs k with
  | none => .ok zeroPersonalInfo
  | some v => unmarshalPersonalInfo v

def decFinancialInfo (fs : List (String × Jval)) (k : String) : Except String FinancialInfo :=
  match jlookup fs k with
  | none => .ok zeroFinancialInfo
  | some v => unmarshalFinancialInfo v

def unmarshalMortgageApplication (j : Jval) : Except String MortgageApplication :=
  match j with
  | .jnull => .ok zeroMortgageApplication
  | .jobj fs =>
    match decStr fs "id", decStr fs "propertyId", decStr fs "landId", decStr fs "permitId",
          decStr fs "buyerId", decStr fs "appraiserApplicationId" with
    | .ok i, .ok pr, .ok la, .ok pe, .ok bu, .ok ap =>
      match decStr fs "salesContractId", decPersonalInfo fs "personalInfo",
            decFinancialInfo fs "financialInfo", decStr fs "status" with
      | .ok sc, .ok pi, .ok fi, .ok st =>
        match decInt fs "requestedAmount", decInt fs "fairMarketValue",
              decInt fs "approvedAmount", decStr fs "reviewerId",
              decStr fs "lastModifiedDate" with
        | .ok ra, .ok fm, .ok aa, .ok rv, .ok lm =>
          .ok ⟨i, pr, la, pe, bu, ap, sc, pi, fi, st, ra, fm, aa, rv, lm⟩
        | .error e, _, _, _, _ => .error e
        | _, .error e, _, _, _ => .error e
        | _, _, .error e, _, _ => .error e
        | _, _, _, .error e, _ => .error e
        | _, _, _, _, .error e => .error e
      | .error e, _, _, _ => .error e
      | _, .error e, _, _ => .error e
      | _, _, .error e, _ => .error e
      | _, _, _, .error e => .error e
    | .error e, _, _, _, _, _ => .error e
    | _, .error e, _, _, _, _ => .error e
    | _, _, .error e, _, _, _ => .error e
    | _, _, _, .error e, _, _ => .error e
    | _, _, _, _, .error e, _ => .error e
    | _, _, _, _, _, .error e => .error e
  | _ => .error "json: cannot unmarshal value into Go value of type main.MortgageApplication"

def unmarshalSalesContract (j : Jval) : Except String SalesContract :=
  match j with
  | .jnull => .ok zeroSalesContract
  | .jobj fs =>
    match decStr fs "id", decStr fs "propertyId", decStr fs "buyerId", decStr fs "sellerId",
          decStr fs "reviewerId" with
    | .ok i, .ok pr, .ok bu, .ok se, .ok rv =>
      match decStr fs "buyerSignature", decStr fs "sellerSignature", decStr fs "status",
            decInt fs "price", decStr fs "lastModifiedDate" with
      | .ok bs, .ok ss, .ok st, .ok p, .ok lm => .ok ⟨i, pr, bu, se, rv, bs, ss, st, p, lm⟩
      | .error e, _, _, _, _ => .error e
      | _, .error e, _, _, _ => .error e
      | _, _, .error e, _, _ => .error e
      | _, _, _, .error e, _ => .error e
      | _, _, _, _, .error e => .error e
    | .error e, _, _, _, _ => .error e
    | _, .error e, _, _, _ => .error e
    | _, _, .error e, _, _ => .error e
    | _, _, _, .error e, _ => .error e
    | _, _, _, _, .error e => .error e
  | _ => .error "json: cannot unmarshal value into Go value of type main.SalesContract"

def unmarshalAppraiserApplication (j : Jval) : Except String AppraiserApplication :=
  match j with
  | .jnull => .ok zeroAppraiserApplication
  | .jobj fs =>
    match decStr fs "id", decStr fs "mortgageApplicationId", decStr fs "appraiserId",
          decStr fs "reviewerId" with
    | .ok i, .ok mi, .ok ai, .ok rv =>
      match decStr fs "propertyId", decStr fs "status", decInt fs "fairMarketValue",
            decStr fs "lastModifiedDate" with
      | .ok pr, .ok st, .ok fm, .ok lm => .ok ⟨i, mi, ai, rv, pr, st, fm, lm⟩
      | .error e, _, _, _ => .error e
      | _, .error e, _, _ => .error e
      | _, _, .error e, _ => .error e
      | _, _, _, .error e => .error e
    | .error e, _, _, _ => .error e
    | _, .error e, _, _ => .error e
    | _, _, .error e, _ => .error e
    | _, _, _, .error e => .error e
  | _ => .error "json: cannot unmarshal value into Go value of type main.AppraiserApplication"

def unmarshalBuyer (j : Jval) : Except String Buyer :=
  match j with
  | .jnull => .ok zeroBuyer
  | .jobj fs =>
    match decStr fs "id", decInt fs "affiliation", decStrList fs "mortgageApplications",
          decStrList fs "salesContracts" with
    | .ok i, .ok a, .ok m, .ok s => .ok ⟨i, a, m, s⟩
    | .error e, _, _, _ => .error e
    | _, .error e, _, _ => .error e
    | _, _, .error e, _ => .error e
    | _, _, _, .error e => .error e
  | _ => .error "json: cannot unmarshal value into Go value of type main.Buyer"

def unmarshalSeller (j : Jval) : Except String Seller :=
  match j with
  | .jnull => .ok zeroSeller
  | .jobj fs =>
    match decStr fs "id", decInt fs "affiliation", decStrList fs "salesContracts" with
    | .ok i, .ok a, .ok s => .ok ⟨i, a, s⟩
    | .error e, _, _ => .error e
    | _, .error e, _ => .error e
    | _, _, .error e => .error e
  | _ => .error "json: cannot unmarshal value into Go value of type main.Seller"

def unmarshalBank (j : Jval) : Except String Bank :=
  match j with
  | .jnull => .ok zeroBank
  | .jobj fs =>
    match decStr fs "id", decInt fs "affiliation", decStrList fs "mortgageApplications",
          decStrList fs "salesContracts" with
    | .ok i, .ok a, .ok m, .ok s => .ok ⟨i, a, m, s⟩
    | .error e, _, _, _ => .error e
    | _, .error e, _, _ => .error e
    | _, _, .error e, _ => .error e
    | _, _, _, .error e => .error e
  | _ => .error "json: cannot unmarshal value into Go value of type main.Bank"

def unmarshalAppraiser (j : Jval) : Except String Appraiser :=
  match j with
  | .jnull => .ok zeroAppraiser
  | .jobj fs =>
    match decStr fs "id", decInt fs "affiliation", decStrList fs "appraiserApplications" with
    | .ok i, .ok a, .ok s => .ok ⟨i, a, s⟩
    | .error e, _, _ => .error e
    | _, .error e, _ => .error e
    | _, _, .error e => .error e
  | _ => .error "json: cannot unmarshal value into Go value of type main.Appraiser"

def unmarshalMAUpdateSchema (j : Jval) : Except String MAUpdateSchema :=
  match j with
  | .jnull => .ok zeroMAUpdateSchema
  | .jobj fs =>
    match decStr fs "status", decStr fs "salesContractId", decInt fs "fairMarketValue",
          decInt fs "approvedAmount" with
    | .ok st, .ok sc, .ok fm, .ok aa => .ok ⟨st, sc, fm, aa⟩
    | .error e, _, _, _ => .error e
    | _, .error e, _, _ => .error e
    | _, _, .error e, _ => .error e
    | _, _, _, .error e => .error e
  | _ => .error "json: cannot unmarshal value into Go value of type main.MAUpdateSchema"

def unmarshalAAUpdateSchema (j : Jval) : Except String AAUpdateSchema :=
  match j with
  | .jnull => .ok zeroAAUpdateSchema
  | .jobj fs =>
    match decStr fs "status", decInt fs "fairMarketValue" with
    | .ok st, .ok fm => .ok ⟨st, fm⟩
    | .error e, _ => .error e
    | _, .error e => .error e
  | _ => .error "json: cannot unmarshal value into Go value of type main.AAUpdateSchema"

def unmarshalSCUpdateSchema (j : Jval) : Except String SCUpdateSchema :=
  match j with
  | .jnull => .ok zeroSCUpdateSchema
  | .jobj fs =>
    match decStr fs "status", decStr fs "buyerSignature", decStr fs "sellerSignature",
          decInt fs "price" with
    | .ok st, .ok bs, .ok ss, .ok p => .ok ⟨st, bs, ss, p⟩
    | .error e, _, _, _ => .error e
    | _, .error e, _, _ => .error e
    | _, _, .error e, _ => .error e
    | _, _, _, .error e => .error e
  | _ => .error "json: cannot unmarshal value into Go value of type main.SCUpdateSchema"

def unmarshalMALog (j : Jval) : Except String MALog :=
  match j with
  | .jnull => .ok zeroMALog
  | .jobj fs =>
    match decStr fs "mortgageApplicationId", decStr fs "buyerId", decStr fs "reviewerId",
          decStr fs "status" with
    | .ok mi, .ok bu, .ok rv, .ok st =>
      match decStr fs "action", decStr fs "text", decStr fs "timestamp" with
      | .ok ac, .ok tx, .ok ts => .ok ⟨mi, bu, rv, st, ac, tx, ts⟩
      | .error e, _, _ => .error e
      | _, .error e, _ => .error e
      | _, _, .error e => .error e
    | .error e, _, _, _ => .error e
    | _, .error e, _, _ => .error e
    | _, _, .error e, _ => .error e
    | _, _, _, .error e => .error e
  | _ => .error "json: cannot unmarshal value into Go value of type main.MALog"

def decMALogElems (xs : List Jval) : Except String (List MALog) :=
  match xs with
  | [] => .ok []
  | x :: rest =>
    match unmarshalMALog x with
    | .ok l =>
      match decMALogElems rest with
      | .ok ls => .ok (l :: ls)
      | .error e => .error e
    | .error e => .error e

/-- Decode a top-level `[]string` value (the key registries). -/
def unmarshalStrList (j : Jval) : Except String (List String) :=
  match j with
  | .jnull => .ok []
  | .jarr xs => decStrElems xs
  | _ => .error "json: cannot unmarshal value into Go value of type []string"

/-- Decode a top-level `[]MALog` value (the global blockchain log). -/
def unmarshalMALogList (j : Jval) : Except String (List MALog) :=
  match j with
  | .jnull => .ok []
  | .jarr xs => decMALogElems xs
  | _ => .error "json: cannot unmarshal value into Go value of type []main.MALog"

def unmarshalMALogHolder (j : Jval) : Except String MALogHolder :=
  match j with
  | .jnull => .ok ⟨[]⟩
  | .jobj fs =>
    match jlookup fs "MALogs" with
    | none => .ok ⟨[]⟩
    | some .jnull => .ok ⟨[]⟩
    | some (.jarr xs) =>
      match decMALogElems xs with
      | .ok ls => .ok ⟨ls⟩
      | .error e => .error e
    | some _ => .error "json: cannot unmarshal value into field MALogs of type []main.MALog"
  | _ => .error "json: cannot unmarshal value into Go value of type main.MALogHolder"

/-! Marshalling: each struct serializes to a JSON object listing its
fields, by JSON tag, in declaration order, mirroring Go's json.Marshal. -/

def marshalPersonalInfo (p : PersonalInfo) : Jval :=
  .jobj [("firstname", .jstr p.firstname), ("lastname", .jstr p.lastname),
         ("dob", .jstr p.dob), ("phone", .jstr p.phone), ("mobile", .jstr p.mobile),
         ("email", .jstr p.email)]

def marshalFinancialInfo (f : FinancialInfo) : Jval :=
  .jobj [("monthlySalary", .jnum f.monthlySalary), ("otherIncome", .jnum f.otherIncome),
         ("otherExpenditure", .jnum f.otherExpenditure), ("monthlyRent", .jnum f.monthlyRent),
         ("monthlyLoanPayment", .jnum f.monthlyLoanPayment)]

def marshalMortgageApplication (m : MortgageApplication) : Jval :=
  .jobj [("id", .jstr m.id), ("propertyId", .jstr m.propertyId), ("landId", .jstr m.landId),
         ("permitId", .jstr m.permitId), ("buyerId", .jstr m.buyerId),
         ("appraiserApplicationId", .jstr m.appraiserApplicationId),
         ("salesContractId", .jstr m.salesContractId),
         ("personalInfo", marshalPersonalInfo m.personalInfo),
         ("financialInfo", marshalFinancialInfo m.financialInfo),
         ("status", .jstr m.status), ("requestedAmount", .jnum m.requestedAmount),
         ("fairMarketValue", .jnum m.fairMarketValue),
         ("approvedAmount", .jnum m.approvedAmount), ("reviewerId", .jstr m.reviewerId),
         ("lastModifiedDate", .jstr m.lastModifiedDate)]

def marshalSalesContract (s : SalesContract) : Jval :=
  .jobj [("id", .jstr s.id), ("propertyId", .jstr s.propertyId), ("buyerId", .jstr s.buyerId),
         ("sellerId", .jstr s.sellerId), ("reviewerId", .jstr s.reviewerId),
         ("buyerSignature", .jstr s.buyerSignature),
         ("sellerSignature", .jstr s.sellerSignature), ("status", .jstr s.status),
         ("price", .jnum s.price), ("lastModifiedDate", .jstr s.lastModifiedDate)]

def marshalAppraiserApplication (a : AppraiserApplication) : Jval :=
  .jobj [("id", .jstr a.id), ("mortgageApplicationId", .jstr a.mortgageApplicationId),
         ("appraiserId", .jstr a.appraiserId), ("reviewerId", .jstr a.reviewerId),
         ("propertyId", .jstr a.propertyId), ("status", .jstr a.status),
         ("fairMarketValue", .jnum a.fairMarketValue),
         ("lastModifiedDate", .jstr a.lastModifiedDate)]

def marshalStrList (l : List String) : Jval := .jarr (l.map .jstr)

def marshalBuyer (b : Buyer) : Jval :=
  .jobj [("id", .jstr b.id), ("affiliation", .jnum b.affiliation),
         ("mortgageApplications", marshalStrList b.mortgageApplications),
         ("salesContracts", marshalStrList b.salesContracts)]

def marshalSeller (s : Seller) : Jval :=
  .jobj [("id", .jstr s.id), ("affiliation", .jnum s.affiliation),
         ("salesContracts", marshalStrList s.salesContracts)]

def marshalBank (b : Bank) : Jval :=
  .jobj [("id", .jstr b.id), ("affiliation", .jnum b.affiliation),
         ("mortgageApplications", marshalStrList b.mortgageApplications),
         ("salesContracts", marshalStrList b.salesContracts)]

def marshalAppraiser (a : Appraiser) : Jval :=
  .jobj [("id", .jstr a.id), ("affiliation", .jnum a.affiliation),
         ("appraiserApplications", marshalStrList a.appraiserApplications)]

def marshalMALog (l : MALog) : Jval :=
  .jobj [("mortgageApplicationId", .jstr l.mortgageApplicationId),
         ("buyerId", .jstr l.buyerId), ("reviewerId", .jstr l.reviewerId),
         ("status", .jstr l.status), ("action", .jstr l.action), ("text", .jstr l.text),
         ("timestamp", .jstr l.timestamp)]

def marshalMALogList (ls : List MALog) : Jval := .jarr (ls.map marshalMALog)

def marshalMALogHolder (lh : MALogHolder) : Jval :=
  .jobj [("MALogs", marshalMALogList lh.MALogs)]

/-- A character trimmed by Go's strings.TrimSpace (ASCII whitespace;
Go additionally trims the rarer Unicode space characters, which no
payload here contains). -/
def isSpaceChar (c : Char) : Bool :=
  c == ' ' || c == '\t' || c == '\n' || c == '\r' || c == '\x0b' || c == '\x0c'

/-- Embedding of strings.TrimSpace: drop leading and trailing
whitespace. -/
def trimSpace (s : String) : String :=
  ⟨(((s.data.dropWhile isSpaceChar).reverse).dropWhile isSpaceChar).reverse⟩

/-- Take the value of a Go call whose error result the source ignores:
on error the zero-valued variable is kept (source idiom
`v, err := F(...)` with `err` overwritten unchecked). -/
def vOr {α : Type} (r : Except String α) (z : α) : α :=
  match r with
  | .ok v => v
  | .error _ => z

/-- GetStateKey (source lines 1809-1841): maps an id and an object type
to the prefixed ledger key. -/
def GetStateKey (id : String) (otype : Int) : Except String String :=
  if otype = MORTGAGEAPPLICATION then .ok (typeMortgageApplication ++ id)
  else if otype = SALESCONTRACT then .ok (typeSalesContract ++ id)
  else if otype = APPRAISERAPPLICATION then .ok (typeAppraiserApplication ++ id)
  else if otype = USER then .ok (typeUser ++ id)
  else if otype = BUYER then .ok (typeBuyer ++ id)
  else if otype = SELLER then .ok (typeSeller ++ id)
  else if otype = BANK then .ok (typeBank ++ id)
  else if otype = APPRAISER then .ok (typeAppraiser ++ id)
  else if otype = AUDITOR then .ok (typeAuditor ++ id)
  else if otype = LAND then .ok (typeLand ++ id)
  else if otype = PROPERTY then .ok (typeProperty ++ id)
  else if otype = PROPERTYAD then .ok (typePropertyAd ++ id)
  else if otype = MALOG then .ok (typeMALog ++ id)
  else .error "Invalid type"

/-- The key produced by `GetStateKey` at a call site where the source
ignores the error result (`key, _ := GetStateKey(...)` or `key, err :=`
with `err` overwritten): on error the zero value `""` is kept. -/
def keyOf (id : String) (otype : Int) : String :=
  match GetStateKey id otype with
  | .ok k => k
  | .error _ => ""

/-- AddKey (source lines 1775-1804): reads the list stored under
`keysName` (absent or read failure yields the empty list), appends `id`,
and writes the result back — under the package-level `maKeysName`, not
under `keysName` (source line 1796). -/
def AddKey (σ : Ledger) (id : String) (keysName : String) : Except String Bool × Ledger :=
  match σ keysName with
  | none => (.ok true, putStateL σ maKeysName (marshalStrList ([] ++ [id])))
  | some bytes =>
    match unmarshalStrList bytes with
    | .error e => (.error e, σ)
    | .ok maKeys => (.ok true, putStateL σ maKeysName (marshalStrList (maKeys ++ [id])))

/-- GetBuyer (source lines 1393-1435): reads the party record at key
`id`; if absent, a zero-valued Buyer with the Buyer affiliation tag is
constructed, persisted and returned. -/
def GetBuyer (σ : Ledger) (id : String) : Except String Buyer × Ledger :=
  match σ id with
  | none =>
    let buyer : Buyer := ⟨id, BUYER_A, [], []⟩
    (.ok buyer, putStateL σ id (marshalBuyer buyer))
  | some bytes =>
    match unmarshalBuyer bytes with
    | .error _ => (.error ("GetBuyer: Could not unmarshal buyer with id " ++ id), σ)
    | .ok buyer => (.ok buyer, σ)

/-- SaveBuyer (source lines 1437-1450): unconditional overwrite. -/
def SaveBuyer (σ : Ledger) (buyer : Buyer) (id : String) : Ledger :=
  putStateL σ id (marshalBuyer buyer)

/-- GetBank (source lines 1455-1497). -/
def GetBank (σ : Ledger) (id : String) : Except String Bank × Ledger :=
  match σ id with
  | none =>
    let bank : Bank := ⟨id, BANK_A, [], []⟩
    (.ok bank, putStateL σ id (marshalBank bank))
  | some bytes =>
    match unmarshalBank bytes with
    | .error _ => (.error ("GetBank: Could not unmarshal bank with id " ++ id), σ)
    | .ok bank => (.ok bank, σ)

/-- SaveBank (source lines 1499-1512). -/
def SaveBank (σ : Ledger) (bank : Bank) (id : String) : Ledger :=
  putStateL σ id (marshalBank bank)

/-- GetSeller (source lines 1599-1641). -/
def GetSeller (σ : Ledger) (id : String) : Except String Seller × Ledger :=
  match σ id with
  | none =>
    let seller : Seller := ⟨id, SELLER_A, []⟩
    (.ok seller, putStateL σ id (marshalSeller seller))
  | some bytes =>
    match unmarshalSeller bytes with
    | .error _ => (.error ("GetSeller: Could not unmarshal seller with id " ++ id), σ)
    | .ok seller => (.ok seller, σ)

/-- SaveSeller (source lines 1646-1659). -/
def SaveSeller (σ : Ledger) (seller : Seller) (id : String) : Ledger :=
  putStateL σ id (marshalSeller seller)

/-- GetAppraiser (source lines 1537-1579). -/
def GetAppraiser (σ : Ledger) (id : String) : Except String Appraiser × Ledger :=
  match σ id with
  | none =>
    let appraiser : Appraiser := ⟨id, APPRAISER_A, []⟩
    (.ok appraiser, putStateL σ id (marshalAppraiser appraiser))
  | some bytes =>
    match unmarshalAppraiser bytes with
    | .error _ => (.error ("GetAppraiser: Could not unmarshal appraiser with id " ++ id), σ)
    | .ok appraiser => (.ok appraiser, σ)

/-- SaveAppraiser (source lines 1581-1594). -/
def SaveAppraiser (σ : Ledger) (appraiser : Appraiser) (id : String) : Ledger :=
  putStateL σ id (marshalAppraiser appraiser)

/-- SaveMortgageApplication (source lines 1373-1388): marshals the
document and overwrites it under its mortgage-application key,
returning the marshalled bytes. -/
def SaveMortgageApplication (σ : Ledger) (ma : MortgageApplication) (id : String) :
    Jval × Ledger :=
  let bytes := marshalMortgageApplication ma
  (bytes, putStateL σ (keyOf id MORTGAGEAPPLICATION) bytes)

/-- SaveAppraiserApplication (source lines 1517-1532). -/
def SaveAppraiserApplication (σ : Ledger) (ma : AppraiserApplication) (id : String) :
    Jval × Ledger :=
  let bytes := marshalAppraiserApplication ma
  (bytes, putStateL σ (keyOf id APPRAISERAPPLICATION) bytes)

/-- SaveSalesContract (source lines 1664-1679). -/
def SaveSalesContract (σ : Ledger) (ma : SalesContract) (id : String) : Jval × Ledger :=
  let bytes := marshalSalesContract ma
  (bytes, putStateL σ (keyOf id SALESCONTRACT) bytes)

/-- GetMALogHolder (source lines 1892-1934): fetch-if-absent-else-create
of the per-document audit log holder. -/
def GetMALogHolder (σ : Ledger) (id : String) : Except String MALogHolder × Ledger :=
  match σ id with
  | none =>
    let lh : MALogHolder := ⟨[]⟩
    (.ok lh, putStateL σ id (marshalMALogHolder lh))
  | some bytes =>
    match unmarshalMALogHolder bytes with
    | .error _ => (.error ("GetBuyer: Could not unmarshal buyer with id " ++ id), σ)
    | .ok lh => (.ok lh, σ)

/-- SaveMALogHolder (source lines 1936-1949). -/
def SaveMALogHolder (σ : Ledger) (lh : MALogHolder) (id : String) : Ledger :=
  putStateL σ id (marshalMALogHolder lh)

/-- GetBCLogs (source lines 1954-1981): the single global audit log;
absent key yields the empty list, no write. -/
def GetBCLogs (σ : Ledger) : Except String (List MALog) :=
  match σ bcLogsKey with
  | none => .ok []
  | some bytes => unmarshalMALogList bytes

/-- SaveBCLogs (source lines 1983-1996). -/
def SaveBCLogs (σ : Ledger) (logs : List MALog) : Ledger :=
  putStateL σ bcLogsKey (marshalMALogList logs)

/-- GetMALogKeys (source lines 2001-2028). -/
def GetMALogKeys (σ : Ledger) : Except String (List String) :=
  match σ maLogKeysName with
  | none => .ok []
  | some bytes => unmarshalStrList bytes

/-- SaveMALogKeys (source lines 2030-2043). -/
def SaveMALogKeys (σ : Ledger) (keys : List String) : Ledger :=
  putStateL σ maLogKeysName (marshalStrList keys)

/-- AppendMALog (source lines 1846-1887): builds a timestamped entry
with empty buyerId/reviewerId, appends it to the per-document holder
(whose fetch error is ignored, keeping the zero-valued holder), records
the holder key in the log-key registry, and appends the entry to the
global blockchain log. -/
def AppendMALog (σ : Ledger) (action text status id now : String) :
    Except String Unit × Ledger :=
  let key := keyOf id MALOG
  let gl := GetMALogHolder σ key
  let lh := vOr gl.1 ⟨[]⟩
  let log : MALog := ⟨id, "", "", status, action, text, now⟩
  let σ₂ := SaveMALogHolder gl.2 ⟨lh.MALogs ++ [log]⟩ key
  match GetMALogKeys σ₂ with
  | .error e => (.error e, σ₂)
  | .ok keys =>
    let σ₃ := SaveMALogKeys σ₂ (keys ++ [key])
    match GetBCLogs σ₃ with
    | .error e => (.error e, σ₃)
    | .ok bcLogs => (.ok (), SaveBCLogs σ₃ (bcLogs ++ [log]))

/-- CreateMortgageApplication (source lines 747-820): parses the body,
stores the raw body unchanged under the document key, registers the key,
appends the document id to the caller's (buyer's) and the reviewing
bank's mortgageApplications lists (the errors of both party reads are
ignored by the source), and appends an audit entry.  The two positional
string arguments of the source are the explicit `mortgageApplicationId`
and `mortgageApplicationInput` parameters. -/
def CreateMortgageApplication (σ : Ledger) (callerId : String) (callerAffiliation : Int)
    (mortgageApplicationId : String) (mortgageApplicationInput : Jval) (now : String) :
    Except String (Option Jval) × Ledger :=
  let maKey := keyOf mortgageApplicationId MORTGAGEAPPLICATION
  match unmarshalMortgageApplication mortgageApplicationInput with
  | .error e => (.error e, σ)
  | .ok ma =>
    let bankId := ma.reviewerId
    let σ₁ := putStateL σ maKey mortgageApplicationInput
    match AddKey σ₁ maKey maKeysName with
    | (.error e, σ₂) => (.error e, σ₂)
    | (.ok _, σ₂) =>
      let userKey := keyOf callerId USER
      let gb := GetBuyer σ₂ userKey
      let user := vOr gb.1 zeroBuyer
      let user₁ : Buyer :=
        { user with mortgageApplications := user.mortgageApplications ++ [mortgageApplicationId] }
      let σ₄ := SaveBuyer gb.2 user₁ userKey
      let bankKey := keyOf bankId USER
      let gk := GetBank σ₄ bankKey
      let bank := vOr gk.1 zeroBank
      let bank₁ : Bank :=
        { bank with mortgageApplications := bank.mortgageApplications ++ [mortgageApplicationId] }
      let σ₆ := SaveBank gk.2 bank₁ bankKey
      let σ₇ := (AppendMALog σ₆ "CreateMortgageApplication"
        (callerId ++ " Submitted new MortgageApplication") "Submitted"
        mortgageApplicationId now).2
      (.ok none, σ₇)

/-- GetMortgageApplication (source lines 825-861): loads and parses the
document (an absent key surfaces as the unmarshal failure of empty
bytes) and returns it with its stored bytes when the caller is the
buyer, the reviewer, or has the Auditor affiliation. -/
def GetMortgageApplication (σ : Ledger) (callerId : String) (callerAffiliation : Int)
    (maId : String) : Except String (MortgageApplication × Jval) :=
  let maKey := keyOf maId MORTGAGEAPPLICATION
  match σ maKey with
  | none => .error "unexpected end of JSON input"
  | some bytes =>
    match unmarshalMortgageApplication bytes with
    | .error e => .error e
    | .ok ma =>
      if callerId = ma.buyerId ∨ callerId = ma.reviewerId ∨ callerAffiliation = AUDITOR_A then
        .ok (ma, bytes)
      else
        .error ("User " ++ callerId ++ "does not have rights to access mortgageApplication with id "
          ++ maId)

/-- UpdateMortgageApplication (source lines 866-973): re-fetches the
document with the Auditor affiliation, parses the partial payload, and
merges it under field-level authorization — the reviewer may change
status, salesContractId and approvedAmount, a caller with the Appraiser
affiliation may change fairMarketValue; empty strings and zero numbers
leave the field unchanged; a write and exactly one audit entry happen
only if some field changed. -/
def UpdateMortgageApplication (σ : Ledger) (callerId : String) (callerAffiliation : Int)
    (id : String) (updatesInput : Jval) (now : String) :
    Except String (Option Jval) × Ledger :=
  match GetMortgageApplication σ callerId AUDITOR_A id with
  | .error e => (.error e, σ)
  | .ok (ma, _) =>
    match unmarshalMAUpdateSchema updatesInput with
    | .error e => (.error e, σ)
    | .ok updates =>
      if callerId = ma.reviewerId then
        let status := trimSpace updates.status
        let ma₁ := if 0 < status.length then { ma with status := status } else ma
        let msg₁ := if 0 < status.length then
            callerId ++ " changed status from " ++ ma.status ++ " to " ++ status
          else ""
        let salesContractId := trimSpace updates.salesContractId
        let ma₂ := if 0 < salesContractId.length then
            { ma₁ with salesContractId := salesContractId } else ma₁
        let msg₂ := if 0 < salesContractId.length then
            (if 0 < status.length then
              msg₁ ++ "and updated sales contract Id to " ++ salesContractId ++ "."
            else msg₁ ++ (callerId ++ " updated sales contract Id to " ++ salesContractId ++ "."))
          else msg₁
        let approvedAmount := updates.approvedAmount
        let ma₃ := if approvedAmount ≠ 0 then { ma₂ with approvedAmount := approvedAmount }
          else ma₂
        let msg₃ := if approvedAmount ≠ 0 then
            (if 0 < status.length ∨ 0 < salesContractId.length then
              msg₂ ++ "and updated approved amount to " ++ toString approvedAmount ++ "."
            else msg₂ ++ (callerId ++ " updated approved amount to " ++ toString approvedAmount
              ++ "."))
          else msg₂
        if 0 < status.length ∨ 0 < salesContractId.length ∨ approvedAmount ≠ 0 then
          let sres := SaveMortgageApplication σ ma₃ id
          let σ₂ := (AppendMALog sres.2 "UpdateMortgageApplication" msg₃ ma₃.status id now).2
          (.ok (some sres.1), σ₂)
        else (.ok none, σ)
      else if callerAffiliation = APPRAISER_A then
        let fairMarketValue := updates.fairMarketValue
        if fairMarketValue ≠ 0 then
          let ma₁ := { ma with fairMarketValue := fairMarketValue }
          let sres := SaveMortgageApplication σ ma₁ id
          let σ₂ := (AppendMALog sres.2 "UpdateMortgageApplication" "" ma₁.status id now).2
          (.ok (some sres.1), σ₂)
        else (.ok none, σ)
      else
        (.error ("User with id " ++ callerId
          ++ "does not have rights to update the mortgage application"), σ)

/-- CreateAppraiserApplication (source lines 978-1039): only a caller
with the Bank affiliation may create; the raw body is stored before it
is parsed; the id is appended to the named appraiser's
appraiserApplications list (the party-read error is ignored). -/
def CreateAppraiserApplication (σ : Ledger) (callerId : String) (callerAffiliation : Int)
    (appraiserApplicationId : String) (appraiserApplicationInput : Jval) (now : String) :
    Except String (Option Jval) × Ledger :=
  if callerAffiliation ≠ BANK_A then
    (.error (callerId ++ " is not allowed to create appraiser application"), σ)
  else
    let maKey := keyOf appraiserApplicationId APPRAISERAPPLICATION
    let σ₁ := putStateL σ maKey appraiserApplicationInput
    match unmarshalAppraiserApplication appraiserApplicationInput with
    | .error e => (.error e, σ₁)
    | .ok aa =>
      match AddKey σ₁ maKey aaKeysName with
      | (.error e, σ₂) => (.error e, σ₂)
      | (.ok _, σ₂) =>
        let userKey := keyOf aa.appraiserId USER
        let ga := GetAppraiser σ₂ userKey
        let user := vOr ga.1 zeroAppraiser
        let user₁ : Appraiser :=
          { user with appraiserApplications :=
              user.appraiserApplications ++ [appraiserApplicationId] }
        let σ₄ := SaveAppraiser ga.2 user₁ userKey
        let σ₅ := (AppendMALog σ₄ "CreateAppraiserApplication"
          (callerId ++ " Submitted new AppraiserApplication") "Submitted"
          appraiserApplicationId now).2
        (.ok none, σ₅)

/-- GetAppraiserApplication (source lines 1044-1080): returned when the
caller is the appraiser, the reviewer, or has the Auditor affiliation. -/
def GetAppraiserApplication (σ : Ledger) (callerId : String) (callerAffiliation : Int)
    (maId : String) : Except String (AppraiserApplication × Jval) :=
  let maKey := keyOf maId APPRAISERAPPLICATION
  match σ maKey with
  | none => .error "unexpected end of JSON input"
  | some bytes =>
    match unmarshalAppraiserApplication bytes with
    | .error e => .error e
    | .ok ma =>
      if callerId = ma.appraiserId ∨ callerId = ma.reviewerId ∨ callerAffiliation = AUDITOR_A then
        .ok (ma, bytes)
      else
        .error ("User " ++ callerId ++ "does not have rights to access appraiserApplication with id "
          ++ maId)

/-- UpdateAppraiserApplication (source lines 1085-1159): only the
assigned appraiser may update; status and fairMarketValue merge with the
empty/zero-means-absent rule; the document is saved unconditionally, the
fair market value (zero if absent) is cascaded to the linked mortgage
application through UpdateMortgageApplication with the caller's own
affiliation, the inner update's bytes are the returned bytes, and an
audit entry is appended with the trimmed new status. -/
def UpdateAppraiserApplication (σ : Ledger) (callerId : String) (callerAffiliation : Int)
    (id : String) (updatesInput : Jval) (now : String) :
    Except String (Option Jval) × Ledger :=
  match GetAppraiserApplication σ callerId callerAffiliation id with
  | .error e => (.error e, σ)
  | .ok (ma, _) =>
    if callerId = ma.appraiserId then
      match unmarshalAAUpdateSchema updatesInput with
      | .error e => (.error e, σ)
      | .ok updates =>
        let status := trimSpace updates.status
        let ma₁ := if 0 < status.length then { ma with status := status } else ma
        let fairMarketValue := updates.fairMarketValue
        let ma₂ := if fairMarketValue ≠ 0 then { ma₁ with fairMarketValue := fairMarketValue }
          else ma₁
        let sres := SaveAppraiserApplication σ ma₂ id
        match UpdateMortgageApplication sres.2 callerId callerAffiliation
            ma.mortgageApplicationId (.jobj [("fairMarketValue", .jnum fairMarketValue)]) now with
        | (.error e, σ₂) => (.error e, σ₂)
        | (.ok innerBytes, σ₂) =>
          let msg :=
            if 0 < status.length ∧ fairMarketValue ≠ 0 then
              callerId ++ " changed status from " ++ ma.status ++ " to " ++ status
                ++ " and updated fair market value: " ++ toString fairMarketValue
            else if 0 < status.length ∧ ¬fairMarketValue ≠ 0 then
              callerId ++ " changed status from " ++ ma.status ++ " to " ++ status
            else if ¬0 < status.length ∧ fairMarketValue ≠ 0 then
              callerId ++ " updated fair market value: " ++ toString fairMarketValue
            else ""
          let σ₃ := (AppendMALog σ₂ "UpdateAppraiserApplication" msg status id now).2
          (.ok innerBytes, σ₃)
    else
      (.error ("User with id " ++ callerId
        ++ "does not have rights to update the appraiser application"), σ)

/-- CreateSalesContract (source lines 1161-1253): only a caller with the
Buyer affiliation may create; the raw body is stored; the id is appended
to the seller's, the caller's (buyer's) and the reviewing bank's
salesContracts lists (party-read errors are ignored). -/
def CreateSalesContract (σ : Ledger) (callerId : String) (callerAffiliation : Int)
    (salesContractId : String) (salesContractInput : Jval) (now : String) :
    Except String (Option Jval) × Ledger :=
  if callerAffiliation ≠ BUYER_A then
    (.error (callerId ++ " is not allowed to create seller contract"), σ)
  else
    let maKey := keyOf salesContractId SALESCONTRACT
    match unmarshalSalesContract salesContractInput with
    | .error e => (.error e, σ)
    | .ok sc =>
      let sellerId := sc.sellerId
      let bankId := sc.reviewerId
      let σ₁ := putStateL σ maKey salesContractInput
      match AddKey σ₁ maKey scKeysName with
      | (.error e, σ₂) => (.error e, σ₂)
      | (.ok _, σ₂) =>
        let userKey := keyOf sellerId USER
        let gs := GetSeller σ₂ userKey
        let user := vOr gs.1 zeroSeller
        let user₁ : Seller :=
          { user with salesContracts := user.salesContracts ++ [salesContractId] }
        let σ₄ := SaveSeller gs.2 user₁ userKey
        let buyerKey := keyOf callerId USER
        let gb := GetBuyer σ₄ buyerKey
        let buyer := vOr gb.1 zeroBuyer
        let buyer₁ : Buyer :=
          { buyer with salesContracts := buyer.salesContracts ++ [salesContractId] }
        let σ₆ := SaveBuyer gb.2 buyer₁ buyerKey
        let bankKey := keyOf bankId USER
        let gk := GetBank σ₆ bankKey
        let bank := vOr gk.1 zeroBank
        let bank₁ : Bank :=
          { bank with salesContracts := bank.salesContracts ++ [salesContractId] }
        let σ₈ := SaveBank gk.2 bank₁ bankKey
        let σ₉ := (AppendMALog σ₈ "CreateSalesContract"
          (callerId ++ " Submitted new SalesContract") "Submitted" salesContractId now).2
        (.ok none, σ₉)

/-- GetSalesContract (source lines 1258-1294): returned when the caller
is the seller, the buyer, has the Auditor affiliation, or has the Bank
affiliation. -/
def GetSalesContract (σ : Ledger) (callerId : String) (callerAffiliation : Int)
    (maId : String) : Except String (SalesContract × Jval) :=
  let maKey := keyOf maId SALESCONTRACT
  match σ maKey with
  | none => .error "unexpected end of JSON input"
  | some bytes =>
    match unmarshalSalesContract bytes with
    | .error e => .error e
    | .ok ma =>
      if callerId = ma.sellerId ∨ callerId = ma.buyerId ∨ callerAffiliation = AUDITOR_A
          ∨ callerAffiliation = BANK_A then
        .ok (ma, bytes)
      else
        .error ("User " ++ callerId ++ "does not have rights to access salesContract with id "
          ++ maId)

/-- UpdateSalesContract (source lines 1299-1368): only the seller or the
buyer may update; status, the signatures and the price merge with the
empty/zero-means-absent rule; the document is saved unconditionally and
one audit entry is appended whose message joins the per-field change
descriptions. -/
def UpdateSalesContract (σ : Ledger) (callerId : String) (callerAffiliation : Int)
    (id : String) (updatesInput : Jval) (now : String) :
    Except String (Option Jval) × Ledger :=
  match GetSalesContract σ callerId callerAffiliation id with
  | .error e => (.error e, σ)
  | .ok (ma, _) =>
    if callerId = ma.sellerId ∨ callerId = ma.buyerId then
      match unmarshalSCUpdateSchema updatesInput with
      | .error e => (.error e, σ)
      | .ok updates =>
        let status := trimSpace updates.status
        let ma₁ := if 0 < status.length then { ma with status := status } else ma
        let logs₁ : List String := if 0 < status.length then
            ["changed status from " ++ ma.status ++ " to " ++ status] else []
        let bs := trimSpace updates.buyerSignature
        let ma₂ := if 0 < bs.length then { ma₁ with buyerSignature := bs } else ma₁
        let logs₂ := if 0 < bs.length then
            logs₁ ++ ["Buyer: " ++ ma₁.buyerId ++ " Signed"] else logs₁
        let ss := trimSpace updates.sellerSignature
        let ma₃ := if 0 < ss.length then { ma₂ with sellerSignature := ss } else ma₂
        let logs₃ := if 0 < ss.length then
            logs₂ ++ ["Seller: " ++ ma₂.sellerId ++ " Signed"] else logs₂
        let price := updates.price
        let ma₄ := if price ≠ 0 then { ma₃ with price := price } else ma₃
        let logs₄ := if price ≠ 0 then
            logs₃ ++ ["Price updated to: " ++ toString price] else logs₃
        let sres := SaveSalesContract σ ma₄ id
        let msg := logs₄.foldl (fun acc l => acc ++ " " ++ l) ""
        let σ₂ := (AppendMALog sres.2 "UpdateSalesContract" msg status id now).2
        (.ok (some sres.1), σ₂)
    else
      (.error ("User with id " ++ callerId
        ++ "does not have rights to update the seller application"), σ)

/-- The per-document audit log currently stored under `key`, as the
holder's entry list: an absent or unparseable holder reads as empty. -/
def maLogsAt (σ : Ledger) (key : String) : List MALog :=
  match σ key with
  | none => []
  | some bytes =>
    match unmarshalMALogHolder bytes with
    | .ok lh => lh.MALogs
    | .error _ => []

/-- The global blockchain audit log currently stored, an absent or
unparseable value reading as empty. -/
def bcLogsAt (σ : Ledger) : List MALog :=
  match σ bcLogsKey with
  | none => []
  | some bytes =>
    match unmarshalMALogList bytes with
    | .ok ls => ls
    | .error _ => []

/-- The mortgageApplications list of the buyer record stored at `key`
(absent or unparseable reads as empty), the party-to-documents index. -/
def buyerMAListAt (σ : Ledger) (key : String) : List String :=
  match σ key with
  | none => []
  | some bytes =>
    match unmarshalBuyer bytes with
    | .ok u => u.mortgageApplications
    | .error _ => []

/-- The mortgageApplications list of the bank record stored at `key`. -/
def bankMAListAt (σ : Ledger) (key : String) : List String :=
  match σ key with
  | none => []
  | some bytes =>
    match unmarshalBank bytes with
    | .ok u => u.mortgageApplications
    | .error _ => []

/-! Concrete fixtures used by counterexamples and witnesses. -/

/-- A stored sales contract: seller s1, buyer b1, reviewing bank k1. -/
def scW : SalesContract := ⟨"c1", "p1", "b1", "s1", "k1", "", "", "New", 100, "d1"⟩

/-- A ledger holding exactly the sales contract scW under its key. -/
def scWState : Ledger :=
  putStateL emptyLedger (typeSalesContract ++ "c1") (marshalSalesContract scW)

/-- A partial-update payload whose recognized string fields are all
empty and whose recognized numeric field is zero. -/
def scWEmptyPayload : Jval :=
  .jobj [("status", .jstr ""), ("buyerSignature", .jstr ""), ("sellerSignature", .jstr ""),
         ("price", .jnum 0)]

/-- A stored mortgage application: buyer b1, reviewing bank k1. -/
def maW : MortgageApplication :=
  ⟨"m1", "p1", "l1", "pm1", "b1", "", "", zeroPersonalInfo, zeroFinancialInfo, "Submitted",
   500, 0, 0, "k1", "d1"⟩

/-- A ledger holding exactly the mortgage application maW under its key. -/
def maWState : Ledger :=
  putStateL emptyLedger (typeMortgageApplication ++ "m1") (marshalMortgageApplication maW)

/-- An appraiser application for mortgage application m1, assigned to
appraiser ap1, reviewed by bank k1. -/
def aaW : AppraiserApplication := ⟨"a1", "m1", "ap1", "k1", "p1", "New", 0, "d1"⟩

/-- A ledger holding the appraiser application aaW and the mortgage
application maW under their keys. -/
def aaWState : Ledger :=
  putStateL maWState (typeAppraiserApplication ++ "a1") (marshalAppraiserApplication aaW)

/-- An all-empty/zero partial-update payload for a mortgage
application. -/
def maWEmptyPayload : Jval :=
  .jobj [("status", .jstr ""), ("salesContractId", .jstr ""), ("fairMarketValue", .jnum 0),
         ("approvedAmount", .jnum 0)]

/-! Infrastructure lemmas. -/

theorem putStateL_same (σ : Ledger) (k : String) (v : Jval) : putStateL σ k v k = some v := by
  simp [putStateL]

theorem putStateL_ne (σ : Ledger) (k : String) (v : Jval) (q : String) (h : q ≠ k) :
    putStateL σ k v q = σ q := by
  simp [putStateL, h]

theorem string_data_append (a b : String) : (a ++ b).data = a.data ++ b.data := by
  cases a
  cases b
  rfl

theorem string_ext_data {a b : String} (h : a.data = b.data) : a = b := by
  cases a
  cases b
  exact congrArg String.mk h

/-- Two strings built by appending to incomparable stems are distinct:
if neither stem is a list-prefix of the other, no suffixes can make the
results coincide. -/
theorem append_ne_append (p q x y : String) (h₁ : ¬ p.data <+: q.data)
    (h₂ : ¬ q.data <+: p.data) : p ++ x ≠ q ++ y := by
  intro he
  have hd : p.data ++ x.data = q.data ++ y.data := by
    have := congrArg String.data he
    simpa [string_data_append] using this
  rcases List.append_eq_append_iff.mp hd with ⟨a, ha, _⟩ | ⟨c, hc, _⟩
  · exact h₁ ⟨a, ha.symm⟩
  · exact h₂ ⟨c, hc.symm⟩

/-- Appending distinct suffixes to one stem yields distinct strings. -/
theorem append_ne_of_ne (p x y : String) (h : x ≠ y) : p ++ x ≠ p ++ y := by
  intro he
  apply h
  have hd : p.data ++ x.data = p.data ++ y.data := by
    have := congrArg String.data he
    simpa [string_data_append] using this
  exact string_ext_data (List.append_cancel_left hd)

theorem keyOf_ma (id : String) : keyOf id MORTGAGEAPPLICATION = typeMortgageApplication ++ id :=
  rfl

theorem keyOf_sc (id : String) : keyOf id SALESCONTRACT = typeSalesContract ++ id := rfl

theorem keyOf_aa (id : String) : keyOf id APPRAISERAPPLICATION = typeAppraiserApplication ++ id :=
  rfl

theorem keyOf_user (id : String) : keyOf id USER = typeUser ++ id := rfl

theorem keyOf_malog (id : String) : keyOf id MALOG = typeMALog ++ id := rfl

/-- Case analysis of a successful GetStateKey: the type is one of the
thirteen mapped kinds and the key is the corresponding prefix plus id. -/
theorem getStateKey_ok_cases (id : String) (t : Int) (k : String)
    (h : GetStateKey id t = .ok k) :
    (t = MORTGAGEAPPLICATION ∧ k = typeMortgageApplication ++ id) ∨
    (t = SALESCONTRACT ∧ k = typeSalesContract ++ id) ∨
    (t = APPRAISERAPPLICATION ∧ k = typeAppraiserApplication ++ id) ∨
    (t = USER ∧ k = typeUser ++ id) ∨
    (t = BUYER ∧ k = typeBuyer ++ id) ∨
    (t = SELLER ∧ k = typeSeller ++ id) ∨
    (t = BANK ∧ k = typeBank ++ id) ∨
    (t = APPRAISER ∧ k = typeAppraiser ++ id) ∨
    (t = AUDITOR ∧ k = typeAuditor ++ id) ∨
    (t = LAND ∧ k = typeLand ++ id) ∨
    (t = PROPERTY ∧ k = typeProperty ++ id) ∨
    (t = PROPERTYAD ∧ k = typePropertyAd ++ id) ∨
    (t = MALOG ∧ k = typeMALog ++ id) := by
  unfold GetStateKey at h
  by_cases h₁ : t = MORTGAGEAPPLICATION
  · rw [if_pos h₁] at h
    injection h with h₀
    exact Or.inl ⟨h₁, h₀.symm⟩
  rw [if_neg h₁] at h
  by_cases h₂ : t = SALESCONTRACT
  · rw [if_pos h₂] at h
    injection h with h₀
    exact Or.inr (Or.inl ⟨h₂, h₀.symm⟩)
  rw [if_neg h₂] at h
  by_cases h₃ : t = APPRAISERAPPLICATION
  · rw [if_pos h₃] at h
    injection h with h₀
    exact Or.inr (Or.inr (Or.inl ⟨h₃, h₀.symm⟩))
  rw [if_neg h₃] at h
  by_cases h₄ : t = USER
  · rw [if_pos h₄] at h
    injection h with h₀
    exact Or.inr (Or.inr (Or.inr (Or.inl ⟨h₄, h₀.symm⟩)))
  rw [if_neg h₄] at h
  by_cases h₅ : t = BUYER
  · rw [if_pos h₅] at h
    injection h with h₀
    exact Or.inr (Or.inr (Or.inr (Or.inr (Or.inl ⟨h₅, h₀.symm⟩))))
  rw [if_neg h₅] at h
  by_cases h₆ : t = SELLER
  · rw [if_pos h₆] at h
    injection h with h₀
    exact Or.inr (Or.inr (Or.inr (Or.inr (Or.inr (Or.inl ⟨h₆, h₀.symm⟩)))))
  rw [if_neg h₆] at h
  by_cases h₇ : t = BANK
  · rw [if_pos h₇] at h
    injection h with h₀
    exact Or.inr (Or.inr (Or.inr (Or.inr (Or.inr (Or.inr (Or.inl ⟨h₇, h₀.symm⟩))))))
  rw [if_neg h₇] at h
  by_cases h₈ : t = APPRAISER
  · rw [if_pos h₈] at h
    injection h with h₀
    exact Or.inr (Or.inr (Or.inr (Or.inr (Or.inr (Or.inr (Or.inr (Or.inl ⟨h₈, h₀.symm⟩)))))))
  rw [if_neg h₈] at h
  by_cases h₉ : t = AUDITOR
  · rw [if_pos h₉] at h
    injection h with h₀
    exact Or.inr (Or.inr (Or.inr (Or.inr (Or.inr (Or.inr (Or.inr (Or.inr (Or.inl
      ⟨h₉, h₀.symm⟩))))))))
  rw [if_neg h₉] at h
  by_cases h₁₀ : t = LAND
  · rw [if_pos h₁₀] at h
    injection h with h₀
    exact Or.inr (Or.inr (Or.inr (Or.inr (Or.inr (Or.inr (Or.inr (Or.inr (Or.inr (Or.inl
      ⟨h₁₀, h₀.symm⟩)))))))))
  rw [if_neg h₁₀] at h
  by_cases h₁₁ : t = PROPERTY
  · rw [if_pos h₁₁] at h
    injection h with h₀
    exact Or.inr (Or.inr (Or.inr (Or.inr (Or.inr (Or.inr (Or.inr (Or.inr (Or.inr (Or.inr
      (Or.inl ⟨h₁₁, h₀.symm⟩))))))))))
  rw [if_neg h₁₁] at h
  by_cases h₁₂ : t = PROPERTYAD
  · rw [if_pos h₁₂] at h
    injection h with h₀
    exact Or.inr (Or.inr (Or.inr (Or.inr (Or.inr (Or.inr (Or.inr (Or.inr (Or.inr (Or.inr
      (Or.inr (Or.inl ⟨h₁₂, h₀.symm⟩)))))))))))
  rw [if_neg h₁₂] at h
  by_cases h₁₃ : t = MALOG
  · rw [if_pos h₁₃] at h
    injection h with h₀
    exact Or.inr (Or.inr (Or.inr (Or.inr (Or.inr (Or.inr (Or.inr (Or.inr (Or.inr (Or.inr
      (Or.inr (Or.inr ⟨h₁₃, h₀.symm⟩)))))))))))
  rw [if_neg h₁₃] at h
  exact absurd h (by simp)

/-- C1: the key-namespace mapping GetStateKey is injective across kinds:
for every two (kind, id) pairs with distinct kinds, the generated ledger
keys are distinct, so a document of one kind can never be stored under
the same ledger key as a document of another kind. -/
theorem getStateKey_injective_across_kinds (t₁ t₂ : Int) (id₁ id₂ k₁ k₂ : String)
    (ht : t₁ ≠ t₂) (h₁ : GetStateKey id₁ t₁ = .ok k₁) (h₂ : GetStateKey id₂ t₂ = .ok k₂) :
    k₁ ≠ k₂ := by
  rcases getStateKey_ok_cases id₁ t₁ k₁ h₁ with ⟨ha, rfl⟩ | ⟨ha, rfl⟩ | ⟨ha, rfl⟩ | ⟨ha, rfl⟩ |
    ⟨ha, rfl⟩ | ⟨ha, rfl⟩ | ⟨ha, rfl⟩ | ⟨ha, rfl⟩ | ⟨ha, rfl⟩ | ⟨ha, rfl⟩ | ⟨ha, rfl⟩ |
    ⟨ha, rfl⟩ | ⟨ha, rfl⟩ <;>
  rcases getStateKey_ok_cases id₂ t₂ k₂ h₂ with ⟨hb, rfl⟩ | ⟨hb, rfl⟩ | ⟨hb, rfl⟩ | ⟨hb, rfl⟩ |
    ⟨hb, rfl⟩ | ⟨hb, rfl⟩ | ⟨hb, rfl⟩ | ⟨hb, rfl⟩ | ⟨hb, rfl⟩ | ⟨hb, rfl⟩ | ⟨hb, rfl⟩ |
    ⟨hb, rfl⟩ | ⟨hb, rfl⟩ <;>
  first
    | exact absurd (ha.trans hb.symm) ht
    | exact append_ne_append _ _ id₁ id₂ (by decide) (by decide)

/-- Witness for C1 at the mortgage-application and sales-contract kinds. -/
theorem getStateKey_injective_across_kinds_witness :
    (typeMortgageApplication ++ "x" : String) ≠ typeSalesContract ++ "x" :=
  getStateKey_injective_across_kinds MORTGAGEAPPLICATION SALESCONTRACT "x" "x"
    (typeMortgageApplication ++ "x") (typeSalesContract ++ "x") (by decide) rfl rfl

/-! Marshal/unmarshal roundtrips: decoding a value just encoded by the
model of json.Marshal recovers the value. -/

theorem decStrElems_map (l : List String) : decStrElems (l.map .jstr) = .ok l := by
  induction l with
  | nil => rfl
  | cons x xs ih => simp [decStrElems, ih]

theorem unmarshalStrList_marshal (l : List String) :
    unmarshalStrList (marshalStrList l) = .ok l := by
  simp [unmarshalStrList, marshalStrList, decStrElems_map]

theorem unmarshalMALog_marshal (x : MALog) : unmarshalMALog (marshalMALog x) = .ok x := by
  cases x
  rfl

theorem decMALogElems_map (ls : List MALog) :
    decMALogElems (ls.map marshalMALog) = .ok ls := by
  induction ls with
  | nil => rfl
  | cons x xs ih => simp [decMALogElems, unmarshalMALog_marshal, ih]

theorem unmarshalMALogHolder_marshal (lh : MALogHolder) :
    unmarshalMALogHolder (marshalMALogHolder lh) = .ok lh := by
  cases lh with
  | mk ls =>
    simp [marshalMALogHolder, unmarshalMALogHolder, marshalMALogList, jlookup, decMALogElems_map]

theorem unmarshalMALogList_marshal (ls : List MALog) :
    unmarshalMALogList (marshalMALogList ls) = .ok ls := by
  simp [unmarshalMALogList, marshalMALogList, decMALogElems_map]

theorem unmarshalBuyer_marshal (b : Buyer) : unmarshalBuyer (marshalBuyer b) = .ok b := by
  cases b with
  | mk i a m s =>
    simp [marshalBuyer, unmarshalBuyer, decStr, decInt, decStrList, jlookup, marshalStrList,
      decStrElems_map]

theorem unmarshalBank_marshal (b : Bank) : unmarshalBank (marshalBank b) = .ok b := by
  cases b with
  | mk i a m s =>
    simp [marshalBank, unmarshalBank, decStr, decInt, decStrList, jlookup, marshalStrList,
      decStrElems_map]

theorem unmarshalSeller_marshal (s : Seller) : unmarshalSeller (marshalSeller s) = .ok s := by
  cases s with
  | mk i a sc =>
    simp [marshalSeller, unmarshalSeller, decStr, decInt, decStrList, jlookup, marshalStrList,
      decStrElems_map]

theorem unmarshalAppraiser_marshal (a : Appraiser) :
    unmarshalAppraiser (marshalAppraiser a) = .ok a := by
  cases a with
  | mk i af aa =>
    simp [marshalAppraiser, unmarshalAppraiser, decStr, decInt, decStrList, jlookup,
      marshalStrList, decStrElems_map]

theorem unmarshalMortgageApplication_marshal (m : MortgageApplication) :
    unmarshalMortgageApplication (marshalMortgageApplication m) = .ok m := by
  obtain ⟨i, pr, la, pe, bu, ap, sc, pi, fi, st, ra, fm, aa, rv, lm⟩ := m
  obtain ⟨a₁, a₂, a₃, a₄, a₅, a₆⟩ := pi
  obtain ⟨b₁, b₂, b₃, b₄, b₅⟩ := fi
  rfl

theorem unmarshalSalesContract_marshal (s : SalesContract) :
    unmarshalSalesContract (marshalSalesContract s) = .ok s := by
  obtain ⟨i, pr, bu, se, rv, bs, ss, st, p, lm⟩ := s
  rfl

theorem unmarshalAppraiserApplication_marshal (a : AppraiserApplication) :
    unmarshalAppraiserApplication (marshalAppraiserApplication a) = .ok a := by
  obtain ⟨i, mi, ai, rv, pr, st, fm, lm⟩ := a
  rfl

/-- A key extending stem `p` never equals a string of which `p` is not a
list-prefix. -/
theorem append_ne_of_not_prefix (p x L : String) (h : ¬ p.data <+: L.data) : p ++ x ≠ L := by
  intro he
  apply h
  exact ⟨x.data, by rw [← string_data_append, he]⟩

theorem malogKey_ne_maLogKeysName (id : String) : typeMALog ++ id ≠ maLogKeysName :=
  append_ne_of_not_prefix _ _ _ (by decide)

theorem malogKey_ne_bcLogsKey (id : String) : typeMALog ++ id ≠ bcLogsKey :=
  append_ne_of_not_prefix _ _ _ (by decide)

theorem getMALogHolder_frame (σ : Ledger) (id k : String) (h : k ≠ id) :
    (GetMALogHolder σ id).2 k = σ k := by
  unfold GetMALogHolder
  cases hσ : σ id with
  | none => simp [putStateL, h]
  | some b => cases hub : unmarshalMALogHolder b <;> simp [hub]

theorem getMALogHolder_logs (σ : Ledger) (id : String) :
    (vOr (GetMALogHolder σ id).1 ⟨[]⟩).MALogs = maLogsAt σ id := by
  unfold GetMALogHolder maLogsAt vOr
  cases hσ : σ id with
  | none => rfl
  | some b => cases hub : unmarshalMALogHolder b <;> simp [hub]

theorem getMALogHolder_key (σ : Ledger) (id : String) :
    (GetMALogHolder σ id).2 id = σ id ∨
      (GetMALogHolder σ id).2 id = some (marshalMALogHolder ⟨[]⟩) := by
  unfold GetMALogHolder
  cases hσ : σ id with
  | none => right; simp [putStateL]
  | some b => cases hub : unmarshalMALogHolder b <;> simp [hub, hσ]

/-- State footprint of AppendMALog: every key other than the
per-document holder key, the log-key registry and the global log is
untouched. -/
theorem appendMALog_frame (σ : Ledger) (action text status id now k : String)
    (h₁ : k ≠ keyOf id MALOG) (h₂ : k ≠ maLogKeysName) (h₃ : k ≠ bcLogsKey) :
    (AppendMALog σ action text status id now).2 k = σ k := by
  unfold AppendMALog
  dsimp only
  split
  · simp [SaveMALogHolder, putStateL, h₁, getMALogHolder_frame _ _ _ h₁]
  · split
    · simp [SaveMALogKeys, SaveMALogHolder, putStateL, h₁, h₂, getMALogHolder_frame _ _ _ h₁]
    · simp [SaveBCLogs, SaveMALogKeys, SaveMALogHolder, putStateL, h₁, h₂, h₃,
        getMALogHolder_frame _ _ _ h₁]

/-- AppendMALog appends exactly one entry — with empty buyerId and
reviewerId — to the per-document holder of the given document id. -/
theorem appendMALog_logs (σ : Ledger) (action text status id now : String) :
    maLogsAt (AppendMALog σ action text status id now).2 (keyOf id MALOG) =
      maLogsAt σ (keyOf id MALOG) ++ [⟨id, "", "", status, action, text, now⟩] := by
  have hkey : ∀ σ' : Ledger,
      maLogsAt (SaveMALogHolder σ' ⟨maLogsAt σ (keyOf id MALOG) ++
        [⟨id, "", "", status, action, text, now⟩]⟩ (keyOf id MALOG)) (keyOf id MALOG) =
      maLogsAt σ (keyOf id MALOG) ++ [⟨id, "", "", status, action, text, now⟩] := by
    intro σ'
    simp [maLogsAt, SaveMALogHolder, putStateL, unmarshalMALogHolder_marshal]
  have hk₂ : keyOf id MALOG ≠ maLogKeysName := by
    rw [keyOf_malog]
    exact malogKey_ne_maLogKeysName id
  have hk₃ : keyOf id MALOG ≠ bcLogsKey := by
    rw [keyOf_malog]
    exact malogKey_ne_bcLogsKey id
  unfold AppendMALog
  dsimp only
  rw [getMALogHolder_logs]
  split
  · exact hkey _
  · split
    · rw [show ∀ σ' ls, maLogsAt (SaveMALogKeys σ' ls) (keyOf id MALOG) =
          maLogsAt σ' (keyOf id MALOG) from ?_]
      · exact hkey _
      · intro σ' ls
        simp [maLogsAt, SaveMALogKeys, putStateL, hk₂]
    · rw [show ∀ σ' ls, maLogsAt (SaveBCLogs σ' ls) (keyOf id MALOG) =
          maLogsAt σ' (keyOf id MALOG) from ?_,
        show ∀ σ' ls, maLogsAt (SaveMALogKeys σ' ls) (keyOf id MALOG) =
          maLogsAt σ' (keyOf id MALOG) from ?_]
      · exact hkey _
      · intro σ' ls
        simp [maLogsAt, SaveMALogKeys, putStateL, hk₂]
      · intro σ' ls
        simp [maLogsAt, SaveBCLogs, putStateL, hk₃]

theorem saveMALogKeys_other (σ : Ledger) (ls : List String) (k : String)
    (h : k ≠ maLogKeysName) : SaveMALogKeys σ ls k = σ k := by
  simp [SaveMALogKeys, putStateL, h]

theorem saveMALogHolder_other (σ : Ledger) (lh : MALogHolder) (id k : String)
    (h : k ≠ id) : SaveMALogHolder σ lh id k = σ k := by
  simp [SaveMALogHolder, putStateL, h]

theorem saveBCLogs_other (σ : Ledger) (ls : List MALog) (k : String)
    (h : k ≠ bcLogsKey) : SaveBCLogs σ ls k = σ k := by
  simp [SaveBCLogs, putStateL, h]

theorem getBCLogs_congr (σ τ : Ledger) (h : σ bcLogsKey = τ bcLogsKey) :
    GetBCLogs σ = GetBCLogs τ := by
  unfold GetBCLogs
  rw [h]

theorem getBCLogs_ok (σ : Ledger) (ls : List MALog) (h : GetBCLogs σ = .ok ls) :
    bcLogsAt σ = ls := by
  unfold GetBCLogs at h
  unfold bcLogsAt
  cases hσ : σ bcLogsKey with
  | none =>
    rw [hσ] at h
    simp at h
    simp [h]
  | some b =>
    rw [hσ] at h
    simp at h
    simp [h]

/-- The global log after AppendMALog: either the entry — empty buyerId
and reviewerId — was appended, or (when the log-key registry or the
global log is unreadable and the call aborts early) it is unchanged. -/
theorem appendMALog_bcLogs (σ : Ledger) (action text status id now : String) :
    bcLogsAt (AppendMALog σ action text status id now).2 =
      bcLogsAt σ ++ [⟨id, "", "", status, action, text, now⟩] ∨
    bcLogsAt (AppendMALog σ action text status id now).2 = bcLogsAt σ := by
  have hbk : bcLogsKey ≠ keyOf id MALOG := by
    rw [keyOf_malog]
    exact (malogKey_ne_bcLogsKey id).symm
  have hbm : bcLogsKey ≠ maLogKeysName := by decide
  unfold AppendMALog
  dsimp only
  split
  · right
    unfold bcLogsAt
    dsimp only
    rw [saveMALogHolder_other _ _ _ _ hbk, getMALogHolder_frame _ _ _ hbk]
  · split
    · right
      unfold bcLogsAt
      dsimp only
      rw [saveMALogKeys_other _ _ _ hbm, saveMALogHolder_other _ _ _ _ hbk,
        getMALogHolder_frame _ _ _ hbk]
    · next bc hbc =>
      left
      rw [getBCLogs_congr _ σ (by
        rw [saveMALogKeys_other _ _ _ hbm, saveMALogHolder_other _ _ _ _ hbk,
          getMALogHolder_frame _ _ _ hbk])] at hbc
      rw [getBCLogs_ok σ bc hbc]
      dsimp only
      simp [bcLogsAt, SaveBCLogs, putStateL, unmarshalMALogList_marshal]

/-- The per-document log at a key other than the one being appended to:
unchanged, or overwritten by a registry/global-log value that does not
parse as a holder (and therefore reads as the empty log). -/
theorem appendMALog_maLogsAt_other (σ : Ledger) (action text status id now k : String)
    (hk : k ≠ keyOf id MALOG) :
    maLogsAt (AppendMALog σ action text status id now).2 k = maLogsAt σ k ∨
    maLogsAt (AppendMALog σ action text status id now).2 k = [] := by
  by_cases h₂ : k = maLogKeysName
  · subst h₂
    unfold AppendMALog
    dsimp only
    split
    · left
      unfold maLogsAt
      dsimp only
      rw [saveMALogHolder_other _ _ _ _ hk, getMALogHolder_frame _ _ _ hk]
    · split
      · right
        unfold maLogsAt
        dsimp only
        simp [SaveMALogKeys, putStateL, marshalStrList, unmarshalMALogHolder]
      · right
        unfold maLogsAt
        dsimp only
        have hbm : maLogKeysName ≠ bcLogsKey := by decide
        rw [saveBCLogs_other _ _ _ hbm]
        simp [SaveMALogKeys, putStateL, marshalStrList, unmarshalMALogHolder]
  · by_cases h₃ : k = bcLogsKey
    · subst h₃
      unfold AppendMALog
      dsimp only
      split
      · left
        unfold maLogsAt
        dsimp only
        rw [saveMALogHolder_other _ _ _ _ hk, getMALogHolder_frame _ _ _ hk]
      · split
        · left
          unfold maLogsAt
          dsimp only
          have hbm : bcLogsKey ≠ maLogKeysName := by decide
          rw [saveMALogKeys_other _ _ _ hbm, saveMALogHolder_other _ _ _ _ hk,
            getMALogHolder_frame _ _ _ hk]
        · right
          unfold maLogsAt
          dsimp only
          simp [SaveBCLogs, putStateL, marshalMALogList, unmarshalMALogHolder]
    · left
      unfold maLogsAt
      rw [appendMALog_frame _ _ _ _ _ _ _ hk h₂ h₃]

/-- C10: every audit log entry ever written by AppendMALog has its
buyerId and reviewerId fields equal to the empty string, even though the
AuditLogEntry data model defines those fields: if every entry of the
per-document log under `k` and of the global log has empty
buyerId/reviewerId, the same holds after any AppendMALog call — only
mortgageApplicationId, status, action, text and timestamp are ever
populated. -/
theorem appendMALog_entries_have_empty_party_ids (σ : Ledger)
    (action text status id now k : String)
    (hdoc : ∀ e ∈ maLogsAt σ k, e.buyerId = "" ∧ e.reviewerId = "")
    (hbc : ∀ e ∈ bcLogsAt σ, e.buyerId = "" ∧ e.reviewerId = "") :
    (∀ e ∈ maLogsAt (AppendMALog σ action text status id now).2 k,
      e.buyerId = "" ∧ e.reviewerId = "") ∧
    (∀ e ∈ bcLogsAt (AppendMALog σ action text status id now).2,
      e.buyerId = "" ∧ e.reviewerId = "") := by
  constructor
  · by_cases hk : k = keyOf id MALOG
    · subst hk
      rw [appendMALog_logs]
      intro e he
      rcases List.mem_append.mp he with h | h
      · exact hdoc e h
      · simp only [List.mem_singleton] at h
        subst h
        exact ⟨rfl, rfl⟩
    · rcases appendMALog_maLogsAt_other σ action text status id now k hk with h | h <;> rw [h]
      · exact hdoc
      · intro e he
        simp at he
  · rcases appendMALog_bcLogs σ action text status id now with h | h <;> rw [h]
    · intro e he
      rcases List.mem_append.mp he with h' | h'
      · exact hbc e h'
      · simp only [List.mem_singleton] at h'
        subst h'
        exact ⟨rfl, rfl⟩
    · exact hbc

/-- Witness for C10 on the empty ledger. -/
theorem appendMALog_entries_have_empty_party_ids_witness :
    (∀ e ∈ maLogsAt (AppendMALog emptyLedger "CreateMortgageApplication"
        "b1 Submitted new MortgageApplication" "Submitted" "m1" "t0").2 (typeMALog ++ "m1"),
      e.buyerId = "" ∧ e.reviewerId = "") ∧
    (∀ e ∈ bcLogsAt (AppendMALog emptyLedger "CreateMortgageApplication"
        "b1 Submitted new MortgageApplication" "Submitted" "m1" "t0").2,
      e.buyerId = "" ∧ e.reviewerId = "") :=
  appendMALog_entries_have_empty_party_ids emptyLedger "CreateMortgageApplication"
    "b1 Submitted new MortgageApplication" "Submitted" "m1" "t0" (typeMALog ++ "m1")
    (by intro e he; simp [maLogsAt, emptyLedger] at he)
    (by intro e he; simp [bcLogsAt, emptyLedger] at he)

/-- C2 (code bug): AddKey at the failing input. With the registry
"maKeys" holding one mortgage-application key and the registry "scKeys"
absent, AddKey of a sales-contract key into list "scKeys" reports
success, yet the list stored under "scKeys" is still absent and the list
under "maKeys" has been overwritten with just the new sales-contract
key: the write goes to the package-level maKeysName instead of the
keysName parameter that was read. -/
theorem addKey_writes_to_maKeys_at_failing_input :
    (AddKey (putStateL emptyLedger maKeysName (marshalStrList ["ma:m1"]))
        "sc:c1" scKeysName).1 = .ok true ∧
    (AddKey (putStateL emptyLedger maKeysName (marshalStrList ["ma:m1"]))
        "sc:c1" scKeysName).2 scKeysName = none ∧
    (AddKey (putStateL emptyLedger maKeysName (marshalStrList ["ma:m1"]))
        "sc:c1" scKeysName).2 maKeysName = some (marshalStrList ["sc:c1"]) :=
  ⟨rfl, rfl, rfl⟩

/-- Evaluation of GetMortgageApplication for an authorized caller. -/
theorem getMortgageApplication_eval (σ : Ledger) (callerId : String) (aff : Int)
    (id : String) (b : Jval) (ma : MortgageApplication)
    (hstore : σ (typeMortgageApplication ++ id) = some b)
    (hma : unmarshalMortgageApplication b = .ok ma)
    (hauth : callerId = ma.buyerId ∨ callerId = ma.reviewerId ∨ aff = AUDITOR_A) :
    GetMortgageApplication σ callerId aff id = .ok (ma, b) := by
  unfold GetMortgageApplication
  dsimp only
  rw [keyOf_ma, hstore]
  dsimp only
  rw [hma]
  dsimp only
  rw [if_pos hauth]

/-- Evaluation of GetMortgageApplication for a denied caller. -/
theorem getMortgageApplication_denied (σ : Ledger) (callerId : String) (aff : Int)
    (id : String) (b : Jval) (ma : MortgageApplication)
    (hstore : σ (typeMortgageApplication ++ id) = some b)
    (hma : unmarshalMortgageApplication b = .ok ma)
    (hauth : ¬(callerId = ma.buyerId ∨ callerId = ma.reviewerId ∨ aff = AUDITOR_A)) :
    GetMortgageApplication σ callerId aff id =
      .error ("User " ++ callerId ++ "does not have rights to access mortgageApplication with id "
        ++ id) := by
  unfold GetMortgageApplication
  dsimp only
  rw [keyOf_ma, hstore]
  dsimp only
  rw [hma]
  dsimp only
  rw [if_neg hauth]

/-- C5: for every stored mortgage application and every caller,
GetMortgageApplication returns the document exactly when the caller's id
equals the document's buyerId or reviewerId or the caller's affiliation
is Auditor; every other caller receives the rights error regardless of
document content. -/
theorem getMortgageApplication_access_control (σ : Ledger) (callerId : String) (aff : Int)
    (id : String) (b : Jval) (ma : MortgageApplication)
    (hstore : σ (typeMortgageApplication ++ id) = some b)
    (hma : unmarshalMortgageApplication b = .ok ma) :
    ((callerId = ma.buyerId ∨ callerId = ma.reviewerId ∨ aff = AUDITOR_A) →
      GetMortgageApplication σ callerId aff id = .ok (ma, b)) ∧
    (¬(callerId = ma.buyerId ∨ callerId = ma.reviewerId ∨ aff = AUDITOR_A) →
      GetMortgageApplication σ callerId aff id =
        .error ("User " ++ callerId
          ++ "does not have rights to access mortgageApplication with id " ++ id)) :=
  ⟨fun h => getMortgageApplication_eval σ callerId aff id b ma hstore hma h,
   fun h => getMortgageApplication_denied σ callerId aff id b ma hstore hma h⟩

/-- Witness for C5: the buyer reads the document, an unrelated seller is
denied. -/
theorem getMortgageApplication_access_control_witness :
    GetMortgageApplication maWState "b1" BUYER_A "m1" =
      .ok (maW, marshalMortgageApplication maW) ∧
    GetMortgageApplication maWState "z9" SELLER_A "m1" =
      .error ("User " ++ "z9" ++ "does not have rights to access mortgageApplication with id "
        ++ "m1") :=
  ⟨(getMortgageApplication_access_control maWState "b1" BUYER_A "m1"
      (marshalMortgageApplication maW) maW rfl (unmarshalMortgageApplication_marshal maW)).1
      (Or.inl rfl),
   (getMortgageApplication_access_control maWState "z9" SELLER_A "m1"
      (marshalMortgageApplication maW) maW rfl (unmarshalMortgageApplication_marshal maW)).2
      (by decide)⟩

/-- C3 (counterexample): UpdateSalesContract by the contract's buyer
with a partial payload whose recognized string fields are all empty and
whose numeric field is zero returns success but appends an audit entry
(and re-writes the document), refuting the claim that all three update
operations are silent no-ops on such payloads. -/
theorem updateSalesContract_empty_payload_appends_audit :
    (UpdateSalesContract scWState "b1" BUYER_A "c1" scWEmptyPayload "t0").1 =
      .ok (some (marshalSalesContract scW)) ∧
    maLogsAt (UpdateSalesContract scWState "b1" BUYER_A "c1" scWEmptyPayload "t0").2
        (typeMALog ++ "c1") =
      [⟨"c1", "", "", "", "UpdateSalesContract", "", "t0"⟩] :=
  ⟨rfl, rfl⟩

/-- C3 (amended): the no-op property holds for UpdateMortgageApplication
only: invoked by an authorized caller (the reviewing bank, or an
Appraiser-affiliated caller) with a partial payload in which every
recognized string field trims to empty and every recognized numeric
field is zero, it returns success with empty result, writes nothing, and
appends no audit entry.  (UpdateAppraiserApplication and
UpdateSalesContract instead re-write the document and append one audit
entry even when nothing changed.) -/
theorem updateMortgageApplication_empty_payload_noop (σ : Ledger) (callerId : String)
    (callerAffiliation : Int) (id : String) (p : Jval) (now : String) (b : Jval)
    (ma : MortgageApplication) (u : MAUpdateSchema)
    (hstore : σ (typeMortgageApplication ++ id) = some b)
    (hma : unmarshalMortgageApplication b = .ok ma)
    (hp : unmarshalMAUpdateSchema p = .ok u)
    (hs : trimSpace u.status = "")
    (hc : trimSpace u.salesContractId = "")
    (ha : u.approvedAmount = 0)
    (hf : u.fairMarketValue = 0)
    (hauth : callerId = ma.reviewerId ∨ callerAffiliation = APPRAISER_A) :
    UpdateMortgageApplication σ callerId callerAffiliation id p now = (.ok none, σ) := by
  unfold UpdateMortgageApplication
  rw [getMortgageApplication_eval σ callerId AUDITOR_A id b ma hstore hma (Or.inr (Or.inr rfl))]
  dsimp only
  rw [hp]
  dsimp only
  by_cases hrev : callerId = ma.reviewerId
  · rw [if_pos hrev]
    simp [hs, hc, ha]
  · rcases hauth with h | haff
    · exact absurd h hrev
    · rw [if_neg hrev, if_pos haff]
      simp [hf]

/-- Witness for the amended C3: the reviewing bank sends the all-empty
payload and the call is a strict no-op. -/
theorem updateMortgageApplication_empty_payload_noop_witness :
    UpdateMortgageApplication maWState "k1" BANK_A "m1" maWEmptyPayload "t0" =
      (.ok none, maWState) :=
  updateMortgageApplication_empty_payload_noop maWState "k1" BANK_A "m1" maWEmptyPayload "t0"
    (marshalMortgageApplication maW) maW ⟨"", "", 0, 0⟩ rfl
    (unmarshalMortgageApplication_marshal maW) rfl rfl rfl rfl rfl (Or.inl rfl)

/-- Evaluation of GetSalesContract for an authorized caller. -/
theorem getSalesContract_eval (σ : Ledger) (callerId : String) (aff : Int)
    (id : String) (b : Jval) (sc : SalesContract)
    (hstore : σ (typeSalesContract ++ id) = some b)
    (hsc : unmarshalSalesContract b = .ok sc)
    (hauth : callerId = sc.sellerId ∨ callerId = sc.buyerId ∨ aff = AUDITOR_A ∨ aff = BANK_A) :
    GetSalesContract σ callerId aff id = .ok (sc, b) := by
  unfold GetSalesContract
  dsimp only
  rw [keyOf_sc, hstore]
  dsimp only
  rw [hsc]
  dsimp only
  rw [if_pos hauth]

/-- Evaluation of GetSalesContract for a denied caller. -/
theorem getSalesContract_denied (σ : Ledger) (callerId : String) (aff : Int)
    (id : String) (b : Jval) (sc : SalesContract)
    (hstore : σ (typeSalesContract ++ id) = some b)
    (hsc : unmarshalSalesContract b = .ok sc)
    (hauth : ¬(callerId = sc.sellerId ∨ callerId = sc.buyerId ∨ aff = AUDITOR_A ∨
      aff = BANK_A)) :
    GetSalesContract σ callerId aff id =
      .error ("User " ++ callerId ++ "does not have rights to access salesContract with id "
        ++ id) := by
  unfold GetSalesContract
  dsimp only
  rw [keyOf_sc, hstore]
  dsimp only
  rw [hsc]
  dsimp only
  rw [if_neg hauth]

/-- C6 (counterexample): a caller who is neither the contract's seller,
nor its buyer, nor its reviewer, and does not have the Auditor
affiliation, but has the Bank affiliation, receives the stored sales
contract — refuting the claim that only the reviewer bank (besides
seller, buyer and auditors) may read it. -/
theorem getSalesContract_nonreviewer_bank_reads :
    ("z9" ≠ scW.sellerId ∧ "z9" ≠ scW.buyerId ∧ "z9" ≠ scW.reviewerId ∧ BANK_A ≠ AUDITOR_A) ∧
    GetSalesContract scWState "z9" BANK_A "c1" = .ok (scW, marshalSalesContract scW) :=
  ⟨by decide, rfl⟩

/-- C6 (amended): for every stored sales contract and caller,
GetSalesContract returns the document exactly when the caller is the
contract's seller or buyer, or has the Auditor affiliation, or has the
Bank affiliation — any bank, not only the contract's reviewer; every
remaining caller receives the rights error. -/
theorem getSalesContract_access_control (σ : Ledger) (callerId : String) (aff : Int)
    (id : String) (b : Jval) (sc : SalesContract)
    (hstore : σ (typeSalesContract ++ id) = some b)
    (hsc : unmarshalSalesContract b = .ok sc) :
    ((callerId = sc.sellerId ∨ callerId = sc.buyerId ∨ aff = AUDITOR_A ∨ aff = BANK_A) →
      GetSalesContract σ callerId aff id = .ok (sc, b)) ∧
    (¬(callerId = sc.sellerId ∨ callerId = sc.buyerId ∨ aff = AUDITOR_A ∨ aff = BANK_A) →
      GetSalesContract σ callerId aff id =
        .error ("User " ++ callerId ++ "does not have rights to access salesContract with id "
          ++ id)) :=
  ⟨fun h => getSalesContract_eval σ callerId aff id b sc hstore hsc h,
   fun h => getSalesContract_denied σ callerId aff id b sc hstore hsc h⟩

/-- Witness for the amended C6: the seller reads the contract, an
unrelated appraiser-affiliated caller is denied. -/
theorem getSalesContract_access_control_witness :
    GetSalesContract scWState "s1" SELLER_A "c1" = .ok (scW, marshalSalesContract scW) ∧
    GetSalesContract scWState "z9" APPRAISER_A "c1" =
      .error ("User " ++ "z9" ++ "does not have rights to access salesContract with id "
        ++ "c1") :=
  ⟨(getSalesContract_access_control scWState "s1" SELLER_A "c1"
      (marshalSalesContract scW) scW rfl (unmarshalSalesContract_marshal scW)).1 (Or.inl rfl),
   (getSalesContract_access_control scWState "z9" APPRAISER_A "c1"
      (marshalSalesContract scW) scW rfl (unmarshalSalesContract_marshal scW)).2 (by decide)⟩

theorem saveMA_dockey (σ : Ledger) (m : MortgageApplication) (i : String) :
    (SaveMortgageApplication σ m i).2 (typeMortgageApplication ++ i) =
      some (marshalMortgageApplication m) := by
  simp [SaveMortgageApplication, keyOf_ma, putStateL]

theorem saveMA_other (σ : Ledger) (m : MortgageApplication) (i k : String)
    (h : k ≠ typeMortgageApplication ++ i) :
    (SaveMortgageApplication σ m i).2 k = σ k := by
  simp [SaveMortgageApplication, keyOf_ma, putStateL, h]

theorem maDocKey_ne_malogKey (i j : String) :
    typeMortgageApplication ++ i ≠ typeMALog ++ j :=
  append_ne_append _ _ _ _ (by decide) (by decide)

theorem maDocKey_ne_maLogKeysName (i : String) :
    typeMortgageApplication ++ i ≠ maLogKeysName :=
  append_ne_of_not_prefix _ _ _ (by decide)

theorem maDocKey_ne_bcLogsKey (i : String) : typeMortgageApplication ++ i ≠ bcLogsKey :=
  append_ne_of_not_prefix _ _ _ (by decide)

theorem string_length_pos (s : String) (h : s ≠ "") : 0 < s.length := by
  cases s with
  | mk l =>
    cases l with
    | nil => exact absurd rfl h
    | cons c cs => simp [String.length]

/-- Through UpdateMortgageApplication, a nonzero approvedAmount and a
nonzero fairMarketValue can never become zero: an empty/zero incoming
field is treated as absent, not as a reset. -/
theorem updateMA_preserves_nonzero (σ : Ledger) (c : String) (a : Int) (i : String)
    (p : Jval) (now : String) (b : Jval) (ma : MortgageApplication) (b' : Jval)
    (ma' : MortgageApplication)
    (hstore : σ (typeMortgageApplication ++ i) = some b)
    (hma : unmarshalMortgageApplication b = .ok ma)
    (hafter : (UpdateMortgageApplication σ c a i p now).2 (typeMortgageApplication ++ i) =
      some b')
    (hma' : unmarshalMortgageApplication b' = .ok ma') :
    (ma.approvedAmount ≠ 0 → ma'.approvedAmount ≠ 0) ∧
    (ma.fairMarketValue ≠ 0 → ma'.fairMarketValue ≠ 0) := by
  have hsame : ∀ bx : Jval, σ (typeMortgageApplication ++ i) = some bx → bx = b := by
    intro bx hx
    rw [hstore] at hx
    exact (Option.some.inj hx).symm
  have hframe : ∀ (τ : Ledger) (ac tx st idv nw : String),
      (AppendMALog τ ac tx st idv nw).2 (typeMortgageApplication ++ i) =
        τ (typeMortgageApplication ++ i) := by
    intro τ ac tx st idv nw
    exact appendMALog_frame τ ac tx st idv nw _
      (by rw [keyOf_malog]; exact maDocKey_ne_malogKey i idv)
      (maDocKey_ne_maLogKeysName i) (maDocKey_ne_bcLogsKey i)
  unfold UpdateMortgageApplication at hafter
  rw [getMortgageApplication_eval σ c AUDITOR_A i b ma hstore hma (Or.inr (Or.inr rfl))]
    at hafter
  dsimp only at hafter
  cases hup : unmarshalMAUpdateSchema p with
  | error e =>
    rw [hup] at hafter
    dsimp only at hafter
    have hb : b' = b := hsame b' hafter
    subst hb
    rw [hma] at hma'
    have : ma' = ma := (Except.ok.inj hma').symm
    subst this
    exact ⟨fun h => h, fun h => h⟩
  | ok u =>
    rw [hup] at hafter
    dsimp only at hafter
    by_cases hrev : c = ma.reviewerId
    · rw [if_pos hrev] at hafter
      by_cases hch : (0 < (trimSpace u.status).length ∨ 0 < (trimSpace u.salesContractId).length
          ∨ u.approvedAmount ≠ 0)
      · rw [if_pos hch] at hafter
        dsimp only at hafter
        rw [hframe, saveMA_dockey] at hafter
        have hb : b' = marshalMortgageApplication
            (if u.approvedAmount ≠ 0 then
              { (if 0 < (trimSpace u.salesContractId).length then
                  { (if 0 < (trimSpace u.status).length then
                      { ma with status := trimSpace u.status } else ma) with
                    salesContractId := trimSpace u.salesContractId }
                else (if 0 < (trimSpace u.status).length then
                  { ma with status := trimSpace u.status } else ma)) with
                approvedAmount := u.approvedAmount }
            else (if 0 < (trimSpace u.salesContractId).length then
                  { (if 0 < (trimSpace u.status).length then
                      { ma with status := trimSpace u.status } else ma) with
                    salesContractId := trimSpace u.salesContractId }
                else (if 0 < (trimSpace u.status).length then
                  { ma with status := trimSpace u.status } else ma))) :=
          (Option.some.inj hafter).symm
        subst hb
        rw [unmarshalMortgageApplication_marshal] at hma'
        have hm : ma' = _ := (Except.ok.inj hma').symm
        subst hm
        constructor
        · intro h
          by_cases hz : u.approvedAmount ≠ 0 <;>
            by_cases h₁ : 0 < (trimSpace u.status).length <;>
            by_cases h₂ : 0 < (trimSpace u.salesContractId).length <;>
            simp [hz, h₁, h₂, h]
        · intro h
          by_cases hz : u.approvedAmount ≠ 0 <;>
            by_cases h₁ : 0 < (trimSpace u.status).length <;>
            by_cases h₂ : 0 < (trimSpace u.salesContractId).length <;>
            simp [hz, h₁, h₂, h]
      · rw [if_neg hch] at hafter
        dsimp only at hafter
        have hb : b' = b := hsame b' hafter
        subst hb
        rw [hma] at hma'
        have : ma' = ma := (Except.ok.inj hma').symm
        subst this
        exact ⟨fun h => h, fun h => h⟩
    · rw [if_neg hrev] at hafter
      by_cases haff : a = APPRAISER_A
      · rw [if_pos haff] at hafter
        by_cases hz : u.fairMarketValue ≠ 0
        · rw [if_pos hz] at hafter
          dsimp only at hafter
          rw [hframe, saveMA_dockey] at hafter
          have hb : b' = marshalMortgageApplication
              { ma with fairMarketValue := u.fairMarketValue } :=
            (Option.some.inj hafter).symm
          subst hb
          rw [unmarshalMortgageApplication_marshal] at hma'
          have hm : ma' = _ := (Except.ok.inj hma').symm
          subst hm
          exact ⟨fun h => h, fun _ => hz⟩
        · rw [if_neg hz] at hafter
          dsimp only at hafter
          have hb : b' = b := hsame b' hafter
          subst hb
          rw [hma] at hma'
          have : ma' = ma := (Except.ok.inj hma').symm
          subst this
          exact ⟨fun h => h, fun h => h⟩
      · rw [if_neg haff] at hafter
        dsimp only at hafter
        have hb : b' = b := hsame b' hafter
        subst hb
        rw [hma] at hma'
        have : ma' = ma := (Except.ok.inj hma').symm
        subst this
        exact ⟨fun h => h, fun h => h⟩

theorem maLogsAt_congr (σ τ : Ledger) (k : String) (h : σ k = τ k) :
    maLogsAt σ k = maLogsAt τ k := by
  unfold maLogsAt
  rw [h]

/-- C8: in UpdateMortgageApplication by the reviewing bank, an empty or
zero incoming field is left unchanged: a payload with only status set
changes status and leaves approvedAmount and salesContractId untouched
(the stored document is the old one with only status replaced), appends
exactly one audit entry whose text names the old and new status, and —
fourth conjunct — approvedAmount or fairMarketValue can never be reset
to 0 through any UpdateMortgageApplication call. -/
theorem updateMortgageApplication_status_only_merge
    (σ : Ledger) (callerId : String) (aff : Int) (id : String) (p : Jval) (now : String)
    (b : Jval) (ma : MortgageApplication) (u : MAUpdateSchema)
    (hstore : σ (typeMortgageApplication ++ id) = some b)
    (hma : unmarshalMortgageApplication b = .ok ma)
    (hrev : callerId = ma.reviewerId)
    (hp : unmarshalMAUpdateSchema p = .ok u)
    (hs : trimSpace u.status ≠ "")
    (hc : trimSpace u.salesContractId = "")
    (ha : u.approvedAmount = 0) :
    (UpdateMortgageApplication σ callerId aff id p now).1 =
      .ok (some (marshalMortgageApplication { ma with status := trimSpace u.status })) ∧
    (UpdateMortgageApplication σ callerId aff id p now).2 (typeMortgageApplication ++ id) =
      some (marshalMortgageApplication { ma with status := trimSpace u.status }) ∧
    maLogsAt (UpdateMortgageApplication σ callerId aff id p now).2 (typeMALog ++ id) =
      maLogsAt σ (typeMALog ++ id) ++
        [⟨id, "", "", trimSpace u.status, "UpdateMortgageApplication",
          callerId ++ " changed status from " ++ ma.status ++ " to " ++ trimSpace u.status,
          now⟩] ∧
    (∀ (σ₂ : Ledger) (c₂ : String) (a₂ : Int) (i₂ : String) (p₂ : Jval) (now₂ : String)
      (b₂ : Jval) (ma₂ : MortgageApplication) (b₃ : Jval) (ma₃ : MortgageApplication),
      σ₂ (typeMortgageApplication ++ i₂) = some b₂ →
      unmarshalMortgageApplication b₂ = .ok ma₂ →
      (UpdateMortgageApplication σ₂ c₂ a₂ i₂ p₂ now₂).2 (typeMortgageApplication ++ i₂) =
        some b₃ →
      unmarshalMortgageApplication b₃ = .ok ma₃ →
      (ma₂.approvedAmount ≠ 0 → ma₃.approvedAmount ≠ 0) ∧
      (ma₂.fairMarketValue ≠ 0 → ma₃.fairMarketValue ≠ 0)) := by
  have hpos : 0 < (trimSpace u.status).length := string_length_pos _ hs
  have hmain : UpdateMortgageApplication σ callerId aff id p now =
      (.ok (some (marshalMortgageApplication { ma with status := trimSpace u.status })),
       (AppendMALog (SaveMortgageApplication σ { ma with status := trimSpace u.status } id).2
         "UpdateMortgageApplication"
         (callerId ++ " changed status from " ++ ma.status ++ " to " ++ trimSpace u.status)
         (trimSpace u.status) id now).2) := by
    unfold UpdateMortgageApplication
    rw [getMortgageApplication_eval σ callerId AUDITOR_A id b ma hstore hma
      (Or.inr (Or.inr rfl))]
    dsimp only
    rw [hp]
    dsimp only
    rw [if_pos hrev]
    simp [hpos, hc, ha]
    rfl
  have hd₁ : typeMortgageApplication ++ id ≠ keyOf id MALOG := by
    rw [keyOf_malog]
    exact maDocKey_ne_malogKey id id
  refine ⟨?_, ?_, ?_, ?_⟩
  · rw [hmain]
  · rw [hmain]
    dsimp only
    rw [appendMALog_frame _ _ _ _ _ _ _ hd₁ (maDocKey_ne_maLogKeysName id)
      (maDocKey_ne_bcLogsKey id), saveMA_dockey]
  · rw [hmain]
    dsimp only
    rw [← keyOf_malog, appendMALog_logs,
      maLogsAt_congr _ σ _ (by
        rw [keyOf_malog]
        exact saveMA_other _ _ _ _ (maDocKey_ne_malogKey id id).symm)]
  · intro σ₂ c₂ a₂ i₂ p₂ now₂ b₂ ma₂ b₃ ma₃ h₁ h₂ h₃ h₄
    exact updateMA_preserves_nonzero σ₂ c₂ a₂ i₂ p₂ now₂ b₂ ma₂ b₃ ma₃ h₁ h₂ h₃ h₄

/-- Witness for C8: the reviewing bank sets only the status; the stored
document changes only in status and one audit entry names both
statuses. -/
theorem updateMortgageApplication_status_only_merge_witness :
    (UpdateMortgageApplication maWState "k1" BANK_A "m1"
        (.jobj [("status", .jstr "Approved")]) "t0").1 =
      .ok (some (marshalMortgageApplication { maW with status := "Approved" })) ∧
    (UpdateMortgageApplication maWState "k1" BANK_A "m1"
        (.jobj [("status", .jstr "Approved")]) "t0").2 (typeMortgageApplication ++ "m1") =
      some (marshalMortgageApplication { maW with status := "Approved" }) ∧
    maLogsAt (UpdateMortgageApplication maWState "k1" BANK_A "m1"
        (.jobj [("status", .jstr "Approved")]) "t0").2 (typeMALog ++ "m1") =
      [⟨"m1", "", "", "Approved", "UpdateMortgageApplication",
        "k1 changed status from Submitted to Approved", "t0"⟩] :=
  ⟨(updateMortgageApplication_status_only_merge maWState "k1" BANK_A "m1"
      (.jobj [("status", .jstr "Approved")]) "t0" (marshalMortgageApplication maW) maW
      ⟨"Approved", "", 0, 0⟩ rfl (unmarshalMortgageApplication_marshal maW) rfl rfl
      (by decide) rfl rfl).1,
   (updateMortgageApplication_status_only_merge maWState "k1" BANK_A "m1"
      (.jobj [("status", .jstr "Approved")]) "t0" (marshalMortgageApplication maW) maW
      ⟨"Approved", "", 0, 0⟩ rfl (unmarshalMortgageApplication_marshal maW) rfl rfl
      (by decide) rfl rfl).2.1,
   (updateMortgageApplication_status_only_merge maWState "k1" BANK_A "m1"
      (.jobj [("status", .jstr "Approved")]) "t0" (marshalMortgageApplication maW) maW
      ⟨"Approved", "", 0, 0⟩ rfl (unmarshalMortgageApplication_marshal maW) rfl rfl
      (by decide) rfl rfl).2.2.1⟩

/-- Evaluation of GetAppraiserApplication for an authorized caller. -/
theorem getAppraiserApplication_eval (σ : Ledger) (callerId : String) (aff : Int)
    (id : String) (b : Jval) (aa : AppraiserApplication)
    (hstore : σ (typeAppraiserApplication ++ id) = some b)
    (haa : unmarshalAppraiserApplication b = .ok aa)
    (hauth : callerId = aa.appraiserId ∨ callerId = aa.reviewerId ∨ aff = AUDITOR_A) :
    GetAppraiserApplication σ callerId aff id = .ok (aa, b) := by
  unfold GetAppraiserApplication
  dsimp only
  rw [keyOf_aa, hstore]
  dsimp only
  rw [haa]
  dsimp only
  rw [if_pos hauth]

theorem saveAA_dockey (σ : Ledger) (m : AppraiserApplication) (i : String) :
    (SaveAppraiserApplication σ m i).2 (typeAppraiserApplication ++ i) =
      some (marshalAppraiserApplication m) := by
  simp [SaveAppraiserApplication, keyOf_aa, putStateL]

theorem saveAA_other (σ : Ledger) (m : AppraiserApplication) (i k : String)
    (h : k ≠ typeAppraiserApplication ++ i) :
    (SaveAppraiserApplication σ m i).2 k = σ k := by
  simp [SaveAppraiserApplication, keyOf_aa, putStateL, h]

theorem aaDocKey_ne_malogKey (i j : String) :
    typeAppraiserApplication ++ i ≠ typeMALog ++ j :=
  append_ne_append _ _ _ _ (by decide) (by decide)

theorem aaDocKey_ne_maLogKeysName (i : String) :
    typeAppraiserApplication ++ i ≠ maLogKeysName :=
  append_ne_of_not_prefix _ _ _ (by decide)

theorem aaDocKey_ne_bcLogsKey (i : String) : typeAppraiserApplication ++ i ≠ bcLogsKey :=
  append_ne_of_not_prefix _ _ _ (by decide)

theorem aaDocKey_ne_maDocKey (i j : String) :
    typeAppraiserApplication ++ i ≠ typeMortgageApplication ++ j :=
  append_ne_append _ _ _ _ (by decide) (by decide)

/-- Evaluation of the Appraiser-affiliation branch of
UpdateMortgageApplication on the cascade payload built by
UpdateAppraiserApplication. -/
theorem updateMA_appraiser_eval (σ : Ledger) (c : String) (a : Int) (i : String) (v : Int)
    (now : String) (b : Jval) (ma : MortgageApplication)
    (hstore : σ (typeMortgageApplication ++ i) = some b)
    (hma : unmarshalMortgageApplication b = .ok ma)
    (hnotrev : c ≠ ma.reviewerId)
    (haff : a = APPRAISER_A)
    (hv : v ≠ 0) :
    UpdateMortgageApplication σ c a i (.jobj [("fairMarketValue", .jnum v)]) now =
      (.ok (some (marshalMortgageApplication { ma with fairMarketValue := v })),
       (AppendMALog (SaveMortgageApplication σ { ma with fairMarketValue := v } i).2
         "UpdateMortgageApplication" "" ma.status i now).2) := by
  unfold UpdateMortgageApplication
  rw [getMortgageApplication_eval σ c AUDITOR_A i b ma hstore hma (Or.inr (Or.inr rfl))]
  dsimp only
  rw [show unmarshalMAUpdateSchema (.jobj [("fairMarketValue", .jnum v)]) =
    .ok ⟨"", "", v, 0⟩ from rfl]
  dsimp only
  rw [if_neg hnotrev, if_pos haff]
  rw [if_pos hv]
  rfl

/-- C7: UpdateAppraiserApplication by the assigned appraiser (in the
Appraiser affiliation, not being the linked mortgage application's
reviewer) with a nonzero fairMarketValue sets that value on the stored
appraiser application and cascades the same value onto the linked
mortgage application's fairMarketValue via the inner call to
UpdateMortgageApplication, whose bytes are also the returned result. -/
theorem updateAppraiserApplication_cascades_fmv (σ : Ledger) (callerId : String)
    (id : String) (p : Jval) (now : String) (ba : Jval) (aa : AppraiserApplication)
    (u : AAUpdateSchema) (bm : Jval) (ma : MortgageApplication)
    (hstoreA : σ (typeAppraiserApplication ++ id) = some ba)
    (haa : unmarshalAppraiserApplication ba = .ok aa)
    (hcaller : callerId = aa.appraiserId)
    (hp : unmarshalAAUpdateSchema p = .ok u)
    (hfmv : u.fairMarketValue ≠ 0)
    (hstoreM : σ (typeMortgageApplication ++ aa.mortgageApplicationId) = some bm)
    (hm : unmarshalMortgageApplication bm = .ok ma)
    (hnotrev : callerId ≠ ma.reviewerId) :
    (UpdateAppraiserApplication σ callerId APPRAISER_A id p now).1 =
      .ok (some (marshalMortgageApplication
        { ma with fairMarketValue := u.fairMarketValue })) ∧
    (UpdateAppraiserApplication σ callerId APPRAISER_A id p now).2
        (typeAppraiserApplication ++ id) =
      some (marshalAppraiserApplication
        { (if 0 < (trimSpace u.status).length then { aa with status := trimSpace u.status }
           else aa) with fairMarketValue := u.fairMarketValue }) ∧
    (UpdateAppraiserApplication σ callerId APPRAISER_A id p now).2
        (typeMortgageApplication ++ aa.mortgageApplicationId) =
      some (marshalMortgageApplication { ma with fairMarketValue := u.fairMarketValue }) := by
  have hmain : UpdateAppraiserApplication σ callerId APPRAISER_A id p now =
      (.ok (some (marshalMortgageApplication
          { ma with fairMarketValue := u.fairMarketValue })),
       (AppendMALog
         (AppendMALog
           (SaveMortgageApplication
             (SaveAppraiserApplication σ
               { (if 0 < (trimSpace u.status).length then
                   { aa with status := trimSpace u.status } else aa) with
                 fairMarketValue := u.fairMarketValue } id).2
             { ma with fairMarketValue := u.fairMarketValue } aa.mortgageApplicationId).2
           "UpdateMortgageApplication" "" ma.status aa.mortgageApplicationId now).2
         "UpdateAppraiserApplication"
         (if 0 < (trimSpace u.status).length ∧ u.fairMarketValue ≠ 0 then
            callerId ++ " changed status from " ++ aa.status ++ " to " ++ trimSpace u.status
              ++ " and updated fair market value: " ++ toString u.fairMarketValue
          else if 0 < (trimSpace u.status).length ∧ ¬u.fairMarketValue ≠ 0 then
            callerId ++ " changed status from " ++ aa.status ++ " to " ++ trimSpace u.status
          else if ¬0 < (trimSpace u.status).length ∧ u.fairMarketValue ≠ 0 then
            callerId ++ " updated fair market value: " ++ toString u.fairMarketValue
          else "")
         (trimSpace u.status) id now).2) := by
    unfold UpdateAppraiserApplication
    rw [getAppraiserApplication_eval σ callerId APPRAISER_A id ba aa hstoreA haa
      (Or.inl hcaller)]
    dsimp only
    rw [if_pos hcaller, hp]
    dsimp only
    rw [if_pos hfmv]
    rw [updateMA_appraiser_eval _ callerId APPRAISER_A aa.mortgageApplicationId
      u.fairMarketValue now bm ma
      (by
        rw [saveAA_other _ _ _ _ (aaDocKey_ne_maDocKey id aa.mortgageApplicationId).symm]
        exact hstoreM)
      hm hnotrev rfl hfmv]
  have haaKey₁ : ∀ j : String, typeAppraiserApplication ++ id ≠ keyOf j MALOG := by
    intro j
    rw [keyOf_malog]
    exact aaDocKey_ne_malogKey id j
  have hmaKey₁ : ∀ j : String,
      typeMortgageApplication ++ aa.mortgageApplicationId ≠ keyOf j MALOG := by
    intro j
    rw [keyOf_malog]
    exact maDocKey_ne_malogKey aa.mortgageApplicationId j
  refine ⟨?_, ?_, ?_⟩
  · rw [hmain]
  · rw [hmain]
    dsimp only
    rw [appendMALog_frame _ _ _ _ _ _ _ (haaKey₁ id) (aaDocKey_ne_maLogKeysName id)
      (aaDocKey_ne_bcLogsKey id),
      appendMALog_frame _ _ _ _ _ _ _ (haaKey₁ aa.mortgageApplicationId)
        (aaDocKey_ne_maLogKeysName id) (aaDocKey_ne_bcLogsKey id),
      saveMA_other _ _ _ _ (aaDocKey_ne_maDocKey id aa.mortgageApplicationId),
      saveAA_dockey]
  · rw [hmain]
    dsimp only
    rw [appendMALog_frame _ _ _ _ _ _ _ (hmaKey₁ id)
      (maDocKey_ne_maLogKeysName aa.mortgageApplicationId)
      (maDocKey_ne_bcLogsKey aa.mortgageApplicationId),
      appendMALog_frame _ _ _ _ _ _ _ (hmaKey₁ aa.mortgageApplicationId)
        (maDocKey_ne_maLogKeysName aa.mortgageApplicationId)
        (maDocKey_ne_bcLogsKey aa.mortgageApplicationId),
      saveMA_dockey]

/-- Witness for C7: appraiser ap1 sets fairMarketValue 420 on appraiser
application a1; both a1 and the linked mortgage application m1 store
420. -/
theorem updateAppraiserApplication_cascades_fmv_witness :
    (UpdateAppraiserApplication aaWState "ap1" APPRAISER_A "a1"
        (.jobj [("fairMarketValue", .jnum 420)]) "t0").1 =
      .ok (some (marshalMortgageApplication { maW with fairMarketValue := 420 })) ∧
    (UpdateAppraiserApplication aaWState "ap1" APPRAISER_A "a1"
        (.jobj [("fairMarketValue", .jnum 420)]) "t0").2 (typeAppraiserApplication ++ "a1") =
      some (marshalAppraiserApplication { aaW with fairMarketValue := 420 }) ∧
    (UpdateAppraiserApplication aaWState "ap1" APPRAISER_A "a1"
        (.jobj [("fairMarketValue", .jnum 420)]) "t0").2 (typeMortgageApplication ++ "m1") =
      some (marshalMortgageApplication { maW with fairMarketValue := 420 }) :=
  updateAppraiserApplication_cascades_fmv aaWState "ap1" "a1"
    (.jobj [("fairMarketValue", .jnum 420)]) "t0" (marshalAppraiserApplication aaW) aaW
    ⟨"", 420⟩ (marshalMortgageApplication maW) maW rfl
    (unmarshalAppraiserApplication_marshal aaW) rfl rfl (by decide) rfl
    (unmarshalMortgageApplication_marshal maW) (by decide)

theorem addKey_absent (σ : Ledger) (id name : String) (h : σ name = none) :
    AddKey σ id name = (.ok true, putStateL σ maKeysName (marshalStrList ([] ++ [id]))) := by
  unfold AddKey
  rw [h]

theorem getBuyer_absent (σ : Ledger) (k : String) (h : σ k = none) :
    GetBuyer σ k = (.ok ⟨k, BUYER_A, [], []⟩,
      putStateL σ k (marshalBuyer ⟨k, BUYER_A, [], []⟩)) := by
  unfold GetBuyer
  rw [h]

theorem getBank_absent (σ : Ledger) (k : String) (h : σ k = none) :
    GetBank σ k = (.ok ⟨k, BANK_A, [], []⟩,
      putStateL σ k (marshalBank ⟨k, BANK_A, [], []⟩)) := by
  unfold GetBank
  rw [h]

theorem getSeller_absent (σ : Ledger) (k : String) (h : σ k = none) :
    GetSeller σ k = (.ok ⟨k, SELLER_A, []⟩,
      putStateL σ k (marshalSeller ⟨k, SELLER_A, []⟩)) := by
  unfold GetSeller
  rw [h]

theorem getAppraiser_absent (σ : Ledger) (k : String) (h : σ k = none) :
    GetAppraiser σ k = (.ok ⟨k, APPRAISER_A, []⟩,
      putStateL σ k (marshalAppraiser ⟨k, APPRAISER_A, []⟩)) := by
  unfold GetAppraiser
  rw [h]

theorem maDocKey_ne_maKeysName (d : String) : typeMortgageApplication ++ d ≠ maKeysName :=
  append_ne_of_not_prefix _ _ _ (by decide)

theorem userKey_ne_maDocKey (x y : String) :
    typeUser ++ x ≠ typeMortgageApplication ++ y :=
  append_ne_append _ _ _ _ (by decide) (by decide)

theorem userKey_ne_maKeysName (x : String) : typeUser ++ x ≠ maKeysName :=
  append_ne_of_not_prefix _ _ _ (by decide)

theorem userKey_ne_malogKey (x y : String) : typeUser ++ x ≠ typeMALog ++ y :=
  append_ne_append _ _ _ _ (by decide) (by decide)

theorem userKey_ne_maLogKeysName (x : String) : typeUser ++ x ≠ maLogKeysName :=
  append_ne_of_not_prefix _ _ _ (by decide)

theorem userKey_ne_bcLogsKey (x : String) : typeUser ++ x ≠ bcLogsKey :=
  append_ne_of_not_prefix _ _ _ (by decide)

/-- C4: CreateMortgageApplication from a fresh ledger, for a body whose
buyerId is the calling buyer and whose reviewerId is a distinct bank,
succeeds; GetMortgageApplication by the submitting buyer then returns
the parsed document (and the submitted bytes), and both the buyer's and
the reviewing bank's lazily-created party records hold exactly the new
document id in their mortgageApplications lists. -/
theorem createMortgageApplication_then_get (b k d : String) (j : Jval)
    (ma : MortgageApplication) (now : String)
    (hj : unmarshalMortgageApplication j = .ok ma)
    (hb : ma.buyerId = b)
    (hk : ma.reviewerId = k)
    (hbk : b ≠ k) :
    (CreateMortgageApplication emptyLedger b BUYER_A d j now).1 = .ok none ∧
    GetMortgageApplication (CreateMortgageApplication emptyLedger b BUYER_A d j now).2
      b BUYER_A d = .ok (ma, j) ∧
    buyerMAListAt (CreateMortgageApplication emptyLedger b BUYER_A d j now).2
      (typeUser ++ b) = [d] ∧
    bankMAListAt (CreateMortgageApplication emptyLedger b BUYER_A d j now).2
      (typeUser ++ k) = [d] := by
  have hub : typeUser ++ k ≠ typeUser ++ b := append_ne_of_ne _ _ _ (Ne.symm hbk)
  have hmain : CreateMortgageApplication emptyLedger b BUYER_A d j now =
      (.ok none,
       (AppendMALog
         (SaveBank
           (putStateL
             (SaveBuyer
               (putStateL
                 (putStateL
                   (putStateL emptyLedger (typeMortgageApplication ++ d) j)
                   maKeysName (marshalStrList [typeMortgageApplication ++ d]))
                 (typeUser ++ b) (marshalBuyer ⟨typeUser ++ b, BUYER_A, [], []⟩))
               ⟨typeUser ++ b, BUYER_A, [d], []⟩ (typeUser ++ b))
             (typeUser ++ k) (marshalBank ⟨typeUser ++ k, BANK_A, [], []⟩))
           ⟨typeUser ++ k, BANK_A, [d], []⟩ (typeUser ++ k))
         "CreateMortgageApplication" (b ++ " Submitted new MortgageApplication") "Submitted"
         d now).2) := by
    unfold CreateMortgageApplication
    dsimp only
    rw [keyOf_ma, hj]
    dsimp only
    rw [keyOf_user, keyOf_user, hk]
    rw [addKey_absent _ _ _ (by
      rw [putStateL_ne _ _ _ _ (maDocKey_ne_maKeysName d).symm]
      rfl)]
    dsimp only
    rw [getBuyer_absent _ _ (by
      rw [putStateL_ne _ _ _ _ (userKey_ne_maKeysName b),
        putStateL_ne _ _ _ _ (userKey_ne_maDocKey b d)]
      rfl)]
    dsimp only [vOr]
    rw [getBank_absent _ _ (by
      simp only [SaveBuyer]
      rw [putStateL_ne _ _ _ _ hub, putStateL_ne _ _ _ _ hub,
        putStateL_ne _ _ _ _ (userKey_ne_maKeysName k),
        putStateL_ne _ _ _ _ (userKey_ne_maDocKey k d)]
      rfl)]
    dsimp only [vOr]
    rfl
  have hdoc : (CreateMortgageApplication emptyLedger b BUYER_A d j now).2
      (typeMortgageApplication ++ d) = some j := by
    rw [hmain]
    dsimp only
    rw [appendMALog_frame _ _ _ _ _ _ _ (by
        rw [keyOf_malog]
        exact maDocKey_ne_malogKey d d)
      (maDocKey_ne_maLogKeysName d) (maDocKey_ne_bcLogsKey d)]
    simp only [SaveBank, SaveBuyer]
    rw [putStateL_ne _ _ _ _ (userKey_ne_maDocKey k d).symm,
      putStateL_ne _ _ _ _ (userKey_ne_maDocKey k d).symm,
      putStateL_ne _ _ _ _ (userKey_ne_maDocKey b d).symm,
      putStateL_ne _ _ _ _ (userKey_ne_maDocKey b d).symm,
      putStateL_ne _ _ _ _ (maDocKey_ne_maKeysName d),
      putStateL_same]
  refine ⟨?_, ?_, ?_, ?_⟩
  · rw [hmain]
  · exact getMortgageApplication_eval _ b BUYER_A d j ma hdoc hj (Or.inl hb.symm)
  · rw [hmain]
    unfold buyerMAListAt
    dsimp only
    rw [appendMALog_frame _ _ _ _ _ _ _ (by
        rw [keyOf_malog]
        exact userKey_ne_malogKey b d)
      (userKey_ne_maLogKeysName b) (userKey_ne_bcLogsKey b)]
    simp only [SaveBank, SaveBuyer]
    rw [putStateL_ne _ _ _ _ hub.symm, putStateL_ne _ _ _ _ hub.symm, putStateL_same]
    simp [unmarshalBuyer_marshal]
  · rw [hmain]
    unfold bankMAListAt
    dsimp only
    rw [appendMALog_frame _ _ _ _ _ _ _ (by
        rw [keyOf_malog]
        exact userKey_ne_malogKey k d)
      (userKey_ne_maLogKeysName k) (userKey_ne_bcLogsKey k)]
    simp only [SaveBank]
    rw [putStateL_same]
    simp [unmarshalBank_marshal]

/-- Witness for C4 with buyer b1, bank k1 and document id m1. -/
theorem createMortgageApplication_then_get_witness :
    (CreateMortgageApplication emptyLedger "b1" BUYER_A "m1"
        (marshalMortgageApplication maW) "t0").1 = .ok none ∧
    GetMortgageApplication (CreateMortgageApplication emptyLedger "b1" BUYER_A "m1"
        (marshalMortgageApplication maW) "t0").2 "b1" BUYER_A "m1" =
      .ok (maW, marshalMortgageApplication maW) ∧
    buyerMAListAt (CreateMortgageApplication emptyLedger "b1" BUYER_A "m1"
        (marshalMortgageApplication maW) "t0").2 (typeUser ++ "b1") = ["m1"] ∧
    bankMAListAt (CreateMortgageApplication emptyLedger "b1" BUYER_A "m1"
        (marshalMortgageApplication maW) "t0").2 (typeUser ++ "k1") = ["m1"] :=
  createMortgageApplication_then_get "b1" "k1" "m1" (marshalMortgageApplication maW) maW "t0"
    (unmarshalMortgageApplication_marshal maW) rfl rfl (by decide)

theorem addKey_frame (σ : Ledger) (id name k : String) (h : k ≠ maKeysName) :
    (AddKey σ id name).2 k = σ k := by
  unfold AddKey
  cases hσ : σ name with
  | none => simp [putStateL, h]
  | some b => cases hub : unmarshalStrList b <;> simp [hub, putStateL, h]

theorem getBuyer_frame (σ : Ledger) (id k : String) (h : k ≠ id) :
    (GetBuyer σ id).2 k = σ k := by
  unfold GetBuyer
  cases hσ : σ id with
  | none => simp [putStateL, h]
  | some b => cases hub : unmarshalBuyer b <;> simp [hub]

theorem getBank_frame (σ : Ledger) (id k : String) (h : k ≠ id) :
    (GetBank σ id).2 k = σ k := by
  unfold GetBank
  cases hσ : σ id with
  | none => simp [putStateL, h]
  | some b => cases hub : unmarshalBank b <;> simp [hub]

theorem getSeller_frame (σ : Ledger) (id k : String) (h : k ≠ id) :
    (GetSeller σ id).2 k = σ k := by
  unfold GetSeller
  cases hσ : σ id with
  | none => simp [putStateL, h]
  | some b => cases hub : unmarshalSeller b <;> simp [hub]

theorem getAppraiser_frame (σ : Ledger) (id k : String) (h : k ≠ id) :
    (GetAppraiser σ id).2 k = σ k := by
  unfold GetAppraiser
  cases hσ : σ id with
  | none => simp [putStateL, h]
  | some b => cases hub : unmarshalAppraiser b <;> simp [hub]

theorem aaDocKey_ne_maKeysName (d : String) : typeAppraiserApplication ++ d ≠ maKeysName :=
  append_ne_of_not_prefix _ _ _ (by decide)

theorem userKey_ne_aaDocKey (x y : String) :
    typeUser ++ x ≠ typeAppraiserApplication ++ y :=
  append_ne_append _ _ _ _ (by decide) (by decide)

theorem scDocKey_ne_maKeysName (d : String) : typeSalesContract ++ d ≠ maKeysName :=
  append_ne_of_not_prefix _ _ _ (by decide)

theorem userKey_ne_scDocKey (x y : String) : typeUser ++ x ≠ typeSalesContract ++ y :=
  append_ne_append _ _ _ _ (by decide) (by decide)

theorem scDocKey_ne_malogKey (i j : String) : typeSalesContract ++ i ≠ typeMALog ++ j :=
  append_ne_append _ _ _ _ (by decide) (by decide)

theorem scDocKey_ne_maLogKeysName (i : String) : typeSalesContract ++ i ≠ maLogKeysName :=
  append_ne_of_not_prefix _ _ _ (by decide)

theorem scDocKey_ne_bcLogsKey (i : String) : typeSalesContract ++ i ≠ bcLogsKey :=
  append_ne_of_not_prefix _ _ _ (by decide)

/-- After CreateMortgageApplication, whatever else happened, the raw
submitted bytes sit unchanged under the document key. -/
theorem createMA_dockey (σ : Ledger) (c : String) (a : Int) (d : String) (j : Jval)
    (ma : MortgageApplication) (now : String)
    (hj : unmarshalMortgageApplication j = .ok ma) :
    (CreateMortgageApplication σ c a d j now).2 (typeMortgageApplication ++ d) = some j := by
  unfold CreateMortgageApplication
  dsimp only
  rw [keyOf_ma, hj]
  dsimp only
  have hak := addKey_frame (putStateL σ (typeMortgageApplication ++ d) j)
    (typeMortgageApplication ++ d) maKeysName (typeMortgageApplication ++ d)
    (maDocKey_ne_maKeysName d)
  cases hA : AddKey (putStateL σ (typeMortgageApplication ++ d) j)
      (typeMortgageApplication ++ d) maKeysName with
  | mk r σ₂ =>
    rw [hA] at hak
    dsimp only at hak
    rw [putStateL_same] at hak
    cases r with
    | error e =>
      dsimp only
      exact hak
    | ok t =>
      dsimp only
      rw [keyOf_user, keyOf_user]
      rw [appendMALog_frame _ _ _ _ _ _ _
        (by rw [keyOf_malog]; exact maDocKey_ne_malogKey d d)
        (maDocKey_ne_maLogKeysName d) (maDocKey_ne_bcLogsKey d)]
      simp only [SaveBank, SaveBuyer]
      rw [putStateL_ne _ _ _ _ (userKey_ne_maDocKey ma.reviewerId d).symm,
        getBank_frame _ _ _ (userKey_ne_maDocKey ma.reviewerId d).symm,
        putStateL_ne _ _ _ _ (userKey_ne_maDocKey c d).symm,
        getBuyer_frame _ _ _ (userKey_ne_maDocKey c d).symm,
        hak]

/-- After CreateAppraiserApplication by a Bank-affiliated caller, the
raw submitted bytes sit unchanged under the document key. -/
theorem createAA_dockey (σ : Ledger) (c : String) (d : String) (j : Jval)
    (aa : AppraiserApplication) (now : String)
    (hj : unmarshalAppraiserApplication j = .ok aa) :
    (CreateAppraiserApplication σ c BANK_A d j now).2 (typeAppraiserApplication ++ d) =
      some j := by
  unfold CreateAppraiserApplication
  rw [if_neg (by simp)]
  dsimp only
  rw [keyOf_aa, hj]
  dsimp only
  have hak := addKey_frame (putStateL σ (typeAppraiserApplication ++ d) j)
    (typeAppraiserApplication ++ d) aaKeysName (typeAppraiserApplication ++ d)
    (aaDocKey_ne_maKeysName d)
  cases hA : AddKey (putStateL σ (typeAppraiserApplication ++ d) j)
      (typeAppraiserApplication ++ d) aaKeysName with
  | mk r σ₂ =>
    rw [hA] at hak
    dsimp only at hak
    rw [putStateL_same] at hak
    cases r with
    | error e =>
      dsimp only
      exact hak
    | ok t =>
      dsimp only
      rw [keyOf_user]
      rw [appendMALog_frame _ _ _ _ _ _ _
        (by rw [keyOf_malog]; exact aaDocKey_ne_malogKey d d)
        (aaDocKey_ne_maLogKeysName d) (aaDocKey_ne_bcLogsKey d)]
      simp only [SaveAppraiser]
      rw [putStateL_ne _ _ _ _ (userKey_ne_aaDocKey aa.appraiserId d).symm,
        getAppraiser_frame _ _ _ (userKey_ne_aaDocKey aa.appraiserId d).symm,
        hak]

/-- After CreateSalesContract by a Buyer-affiliated caller, the raw
submitted bytes sit unchanged under the document key. -/
theorem createSC_dockey (σ : Ledger) (c : String) (d : String) (j : Jval)
    (sc : SalesContract) (now : String)
    (hj : unmarshalSalesContract j = .ok sc) :
    (CreateSalesContract σ c BUYER_A d j now).2 (typeSalesContract ++ d) = some j := by
  unfold CreateSalesContract
  rw [if_neg (by simp)]
  dsimp only
  rw [keyOf_sc, hj]
  dsimp only
  have hak := addKey_frame (putStateL σ (typeSalesContract ++ d) j)
    (typeSalesContract ++ d) scKeysName (typeSalesContract ++ d)
    (scDocKey_ne_maKeysName d)
  cases hA : AddKey (putStateL σ (typeSalesContract ++ d) j)
      (typeSalesContract ++ d) scKeysName with
  | mk r σ₂ =>
    rw [hA] at hak
    dsimp only at hak
    rw [putStateL_same] at hak
    cases r with
    | error e =>
      dsimp only
      exact hak
    | ok t =>
      dsimp only
      rw [keyOf_user, keyOf_user, keyOf_user]
      rw [appendMALog_frame _ _ _ _ _ _ _
        (by rw [keyOf_malog]; exact scDocKey_ne_malogKey d d)
        (scDocKey_ne_maLogKeysName d) (scDocKey_ne_bcLogsKey d)]
      simp only [SaveBank, SaveBuyer, SaveSeller]
      rw [putStateL_ne _ _ _ _ (userKey_ne_scDocKey sc.reviewerId d).symm,
        getBank_frame _ _ _ (userKey_ne_scDocKey sc.reviewerId d).symm,
        putStateL_ne _ _ _ _ (userKey_ne_scDocKey c d).symm,
        getBuyer_frame _ _ _ (userKey_ne_scDocKey c d).symm,
        putStateL_ne _ _ _ _ (userKey_ne_scDocKey sc.sellerId d).symm,
        getSeller_frame _ _ _ (userKey_ne_scDocKey sc.sellerId d).symm,
        hak]

/-- C9: for each document kind with a Create operation, Create with a
given body followed immediately by the kind's Get of the same id by an
authorized party returns exactly the bytes submitted as the body — the
stored payload is the raw input, not a re-serialization. -/
theorem create_then_get_returns_submitted_bytes :
    (∀ (σ : Ledger) (c : String) (a : Int) (d : String) (j : Jval)
       (ma : MortgageApplication) (now r : String) (raff : Int),
      unmarshalMortgageApplication j = .ok ma →
      (r = ma.buyerId ∨ r = ma.reviewerId ∨ raff = AUDITOR_A) →
      GetMortgageApplication (CreateMortgageApplication σ c a d j now).2 r raff d =
        .ok (ma, j)) ∧
    (∀ (σ : Ledger) (c d : String) (j : Jval) (aa : AppraiserApplication) (now r : String)
       (raff : Int),
      unmarshalAppraiserApplication j = .ok aa →
      (r = aa.appraiserId ∨ r = aa.reviewerId ∨ raff = AUDITOR_A) →
      GetAppraiserApplication (CreateAppraiserApplication σ c BANK_A d j now).2 r raff d =
        .ok (aa, j)) ∧
    (∀ (σ : Ledger) (c d : String) (j : Jval) (sc : SalesContract) (now r : String)
       (raff : Int),
      unmarshalSalesContract j = .ok sc →
      (r = sc.sellerId ∨ r = sc.buyerId ∨ raff = AUDITOR_A ∨ raff = BANK_A) →
      GetSalesContract (CreateSalesContract σ c BUYER_A d j now).2 r raff d =
        .ok (sc, j)) :=
  ⟨fun σ c a d j ma now r raff hj hauth =>
    getMortgageApplication_eval _ r raff d j ma (createMA_dockey σ c a d j ma now hj) hj hauth,
   fun σ c d j aa now r raff hj hauth =>
    getAppraiserApplication_eval _ r raff d j aa (createAA_dockey σ c d j aa now hj) hj hauth,
   fun σ c d j sc now r raff hj hauth =>
    getSalesContract_eval _ r raff d j sc (createSC_dockey σ c d j sc now hj) hj hauth⟩

/-- Witness for C9: a mortgage application read back by its buyer, an
appraiser application read back by its appraiser, and a sales contract
read back by its seller, all byte-identical to the submission. -/
theorem create_then_get_returns_submitted_bytes_witness :
    GetMortgageApplication (CreateMortgageApplication emptyLedger "b1" BUYER_A "m1"
        (marshalMortgageApplication maW) "t0").2 "b1" BUYER_A "m1" =
      .ok (maW, marshalMortgageApplication maW) ∧
    GetAppraiserApplication (CreateAppraiserApplication emptyLedger "k1" BANK_A "a1"
        (marshalAppraiserApplication aaW) "t0").2 "ap1" APPRAISER_A "a1" =
      .ok (aaW, marshalAppraiserApplication aaW) ∧
    GetSalesContract (CreateSalesContract emptyLedger "b1" BUYER_A "c1"
        (marshalSalesContract scW) "t0").2 "s1" SELLER_A "c1" =
      .ok (scW, marshalSalesContract scW) :=
  ⟨create_then_get_returns_submitted_bytes.1 emptyLedger "b1" BUYER_A "m1"
      (marshalMortgageApplication maW) maW "t0" "b1" BUYER_A
      (unmarshalMortgageApplication_marshal maW) (Or.inl rfl),
   create_then_get_returns_submitted_bytes.2.1 emptyLedger "k1" "a1"
      (marshalAppraiserApplication aaW) aaW "t0" "ap1" APPRAISER_A
      (unmarshalAppraiserApplication_marshal aaW) (Or.inl rfl),
   create_then_get_returns_submitted_bytes.2.2 emptyLedger "b1" "c1"
      (marshalSalesContract scW) scW "t0" "s1" SELLER_A
      (unmarshalSalesContract_marshal scW) (Or.inl rfl)⟩
